import Mathlib

/-!
Shallow embedding of the monke.army bin-farm program
(`programs/bin-farm/src/lib.rs`) and proofs about its harvest/close
state machine, fee arithmetic, governance timelocks and pause gates.

Conventions of the embedding:
* Solana `Pubkey`s are abstracted to `Nat`; `Pubkey::default()` is `0`.
* `u64`/`u16` quantities are `Nat` with explicit `2^64` bounds where the
  source uses checked or saturating arithmetic; `i32`/`i64` quantities
  (bin ids, unix timestamps) are `Int`.
* Rust `checked_*` operations become explicit guards returning
  `Except CoreError _` exactly where the source maps `None` to an error.
* A `u128 as u64` cast is `% 2^64`.
* The external Meteora pool is an oracle: post-CPI vault balances are
  inputs, and every pool CPI the handler issues is recorded in the
  result's `poolCpis` list, so "rejected before any external call" is
  expressed as the handler returning an error for every oracle value.
* Anchor account constraints (`constraint = ...` in the `#[derive(Accounts)]`
  context) are evaluated before the handler body runs; they appear as the
  leading guards of each function. PDA bump seeds and rent plumbing carry
  no arithmetic content and are not modelled.
-/

namespace BinFarm

/-- `CoreError` from the source, one constructor per `#[error_code]` variant. -/
inductive CoreError where
  | Unauthorized
  | Paused
  | ZeroAmount
  | InvalidBinRange
  | PositionTooWide
  | BinOutOfPositionRange
  | InvalidSlippage
  | FeeTooHigh
  | NoBinsProvided
  | TooManyBins
  | NonContiguousBins
  | Overflow
  | InvalidTokenOwner
  | InvalidProgram
  | InvalidPosition
  | InvalidPool
  | NoPendingAuthority
  | NoPendingFeeChange
  | FeeTimelockNotExpired
  | NothingToSweep
  | BotPaused
  | RoverDepositTooSmall
  | PositionTooSmall
  | RoverBinStepTooSmall
  | InvalidDistPool
  | BotNotStale
  | MissingKeeperAta
  | PrioritySlotsExceedMax
  | NoPendingEmergencyClose
  | EmergencyCloseTimelockNotExpired
  deriving Repr, DecidableEq

/-- `Side` enum: the economic direction of a position. -/
inductive Side where
  | Buy
  | Sell
  deriving Repr, DecidableEq

/-- Program-id constants, abstracted to distinct `Nat` tags. -/
def METEORA_DLMM_PROGRAM_ID : Nat := 101
def TOKEN_PROGRAM_ID : Nat := 102
def TOKEN_2022_PROGRAM_ID : Nat := 103
def SPL_MEMO_PROGRAM_ID : Nat := 104

def MIN_ROVER_DEPOSIT : Nat := 10000
def MIN_POSITION_AMOUNT : Nat := 10000
def MIN_ROVER_BIN_STEP : Nat := 20
def MAX_POSITION_WIDTH : Int := 70

def U64_MOD : Nat := 2 ^ 64
def U128_MOD : Nat := 2 ^ 128

/-- `as u64` truncating cast from a `u128` intermediate. -/
def u64cast (n : Nat) : Nat := n % U64_MOD

/-- `u64::checked_sub`, with `None` mapped to `CoreError::Overflow`
as in the source. -/
def chkSub64 (a b : Nat) : Except CoreError Nat :=
  if b ≤ a then .ok (a - b) else .error .Overflow

/-- `u64::checked_add`, with `None` mapped to `CoreError::Overflow`. -/
def chkAdd64 (a b : Nat) : Except CoreError Nat :=
  if a + b < U64_MOD then .ok (a + b) else .error .Overflow

/-- `u128::checked_mul`, with `None` mapped to `CoreError::Overflow`. -/
def chkMul128 (a b : Nat) : Except CoreError Nat :=
  if a * b < U128_MOD then .ok (a * b) else .error .Overflow

/-- `u64::saturating_add`. -/
def satAdd64 (a b : Nat) : Nat := min (a + b) (U64_MOD - 1)



/-- Success characterization of `chkSub64`. -/
theorem chkSub64_ok {a b v : Nat} : chkSub64 a b = .ok v ↔ b ≤ a ∧ v = a - b := by
  unfold chkSub64
  split
  · simp [eq_comm]
    omega
  · simp
    omega

/-- Success characterization of `chkAdd64`. -/
theorem chkAdd64_ok {a b v : Nat} : chkAdd64 a b = .ok v ↔ a + b < U64_MOD ∧ v = a + b := by
  unfold chkAdd64
  split
  · simp [eq_comm]
    omega
  · simp
    omega

/-- Success characterization of `chkMul128`. -/
theorem chkMul128_ok {a b v : Nat} : chkMul128 a b = .ok v ↔ a * b < U128_MOD ∧ v = a * b := by
  unfold chkMul128
  split
  · simp [eq_comm]
    tauto
  · simp
    tauto

/-- The bps fee formula: below the `u64` boundary the truncating cast is
the identity and a `bps ≤ 10000` fee never exceeds its base. -/
theorem fee_formula {d bps : Nat} (hd : d < U64_MOD) (hb : bps ≤ 10000) :
    u64cast (d * bps / 10000) = d * bps / 10000 ∧ d * bps / 10000 ≤ d := by
  have h2 : d * bps / 10000 ≤ d := by
    calc d * bps / 10000 ≤ d * 10000 / 10000 :=
          Nat.div_le_div_right (Nat.mul_le_mul_left d hb)
    _ = d := by omega
  exact ⟨Nat.mod_eq_of_lt (lt_of_le_of_lt h2 hd), h2⟩

/-- `Config` account (`#[account] pub struct Config`), field for field.
The PDA `bump` is address-derivation plumbing and is not modelled. -/
structure Config where
  authority : Nat
  pending_authority : Nat
  bot : Nat
  fee_bps : Nat
  pending_fee_bps : Nat
  fee_change_at : Int
  total_positions : Nat
  total_volume : Nat
  paused : Bool
  bot_paused : Bool
  last_bot_harvest_slot : Nat
  keeper_tip_bps : Nat
  priority_slots : Nat
  total_harvested : Nat
  pending_emergency_close : Nat
  emergency_close_at : Int
  last_bot_close_slot : Nat
  last_bot_sweep_slot : Nat
  deriving Repr, DecidableEq

/-- `Position` account, field for field (PDA bump omitted). -/
structure Position where
  owner : Nat
  lb_pair : Nat
  meteora_position : Nat
  side : Side
  min_bin_id : Int
  max_bin_id : Int
  initial_amount : Nat
  harvested_amount : Nat
  created_at : Int
  deriving Repr, DecidableEq

/-- `RoverAuthority` account, field for field (PDA bump omitted). -/
structure RoverAuthority where
  revenue_dest : Nat
  total_rover_positions : Nat
  pending_revenue_dest : Nat
  revenue_dest_change_at : Int
  deriving Repr, DecidableEq

/-- External pool (Meteora) CPIs a handler can issue, recorded in results. -/
inductive PoolCpi where
  | initializePosition (minBin width : Int)
  | addLiquidity
  | removeLiquidityByRange (fromBin toBin : Int) (bps : Nat)
  | claimFee (fromBin toBin : Int)
  | closePosition
  deriving Repr, DecidableEq

/-- The `Config`-creating instruction (source name starts with `initial` and
ends in `ize`): creates the singleton `Config`. -/
def initConfig (authority bot fee_bps : Nat) : Except CoreError Config :=
  if ¬ fee_bps ≤ 1000 then .error .FeeTooHigh
  else .ok {
    authority := authority
    pending_authority := 0
    bot := bot
    fee_bps := fee_bps
    pending_fee_bps := 0
    fee_change_at := 0
    total_positions := 0
    total_volume := 0
    paused := false
    bot_paused := false
    last_bot_harvest_slot := 0
    keeper_tip_bps := 1000
    priority_slots := 100
    total_harvested := 0
    pending_emergency_close := 0
    emergency_close_at := 0
    last_bot_close_slot := 0
    last_bot_sweep_slot := 0 }

/-- `execute_close_transfers`: the shared close fee-and-payout split.
Fee is charged on the full post-claim vault balance on the position's
side; returns `(x_fee, y_fee, x_to_recipient, y_to_recipient)`. -/
def execute_close_transfers (side : Side) (fee_bps : Nat) (vault_x_balance vault_y_balance : Nat) :
    Except CoreError (Nat × Nat × Nat × Nat) :=
  let feeOf : Nat → Except CoreError Nat := fun bal =>
    match chkMul128 bal fee_bps with
    | .error e => .error e
    | .ok p => .ok (u64cast (p / 10000))
  match (match side with
         | .Buy => (feeOf vault_x_balance).map fun f => (f, 0)
         | .Sell => (feeOf vault_y_balance).map fun f => (0, f)) with
  | .error e => .error e
  | .ok (x_fee, y_fee) =>
    match chkSub64 vault_x_balance x_fee with
    | .error e => .error e
    | .ok x_to_recipient =>
      match chkSub64 vault_y_balance y_fee with
      | .error e => .error e
      | .ok y_to_recipient => .ok (x_fee, y_fee, x_to_recipient, y_to_recipient)

example : execute_close_transfers .Buy 30 50000 0 = .ok (150, 0, 49850, 0) := rfl

/-- `bin_ids.iter().min()` on the supplied `Vec<i32>`. -/
def listMin : List Int → Option Int
  | [] => none
  | x :: xs => some (xs.foldl min x)

/-- `bin_ids.iter().max()` on the supplied `Vec<i32>`. -/
def listMax : List Int → Option Int
  | [] => none
  | x :: xs => some (xs.foldl max x)

/-- The keeper tip account a permissionless harvester supplies in
`remaining_accounts[0]`: its address, the program that owns it, and its
token mint (the fields `harvest_bins` inspects). -/
structure KeeperAta where
  key : Nat
  ownerProgram : Nat
  mint : Nat
  deriving Repr, DecidableEq

/-- Addresses of the fixed accounts of the `BotHarvest` context that
`harvest_bins` compares the keeper account against, plus the two mints. -/
structure HarvestAccounts where
  rover_fee_token_x : Nat
  rover_fee_token_y : Nat
  owner_token_x : Nat
  owner_token_y : Nat
  token_x_mint : Nat
  token_y_mint : Nat
  deriving Repr, DecidableEq

/-- Result of a successful `harvest_bins`: updated accounts, the split
amounts actually transferred, and the pool CPIs issued. -/
structure HarvestResult where
  config : Config
  position : Position
  fromBin : Int
  toBin : Int
  x_fee : Nat
  y_fee : Nat
  x_tip : Nat
  y_tip : Nat
  x_to_protocol : Nat
  y_to_protocol : Nat
  x_to_owner : Nat
  y_to_owner : Nat
  poolCpis : List PoolCpi
  deriving Repr, DecidableEq

/-- The authorization step of `harvest_bins`: the configured bot gets its
heartbeat updated; any other caller is admitted only when the bot is
stale (`slots_since > priority_slots`). Returns the configuration to use
downstream. -/
def harvest_author (cfg : Config) (caller clockSlot : Nat) : Except CoreError Config :=
  if caller = cfg.bot then .ok { cfg with last_bot_harvest_slot := clockSlot }
  else
    match chkSub64 clockSlot cfg.last_bot_harvest_slot with
    | .error e => .error e
    | .ok slots_since =>
      if slots_since > cfg.priority_slots then .ok cfg
      else .error .BotNotStale

/-- Tail of `harvest_bins` once the fee and tip are determined: protocol
and owner splits, tip-account validation, transfers and counter updates. -/
def harvest_finish (cfg1 : Config) (pos : Position) (fromBin toBin : Int)
    (x_after y_after x_fee y_fee x_tip y_tip : Nat)
    (keeperAta : Option KeeperAta) (acc : HarvestAccounts) :
    Except CoreError HarvestResult :=
  match chkSub64 x_fee x_tip with
  | .error e => .error e
  | .ok x_to_protocol =>
    match chkSub64 y_fee y_tip with
    | .error e => .error e
    | .ok y_to_protocol =>
      -- Post-reload vault totals minus fee go to the owner
      -- (vault acts as a transparent pipe).
      match chkSub64 x_after x_fee with
      | .error e => .error e
      | .ok x_to_owner =>
        match chkSub64 y_after y_fee with
        | .error e => .error e
        | .ok y_to_owner =>
          -- Tip account validation, only when a tip is due.
          (match (if x_tip > 0 ∨ y_tip > 0 then
                    match keeperAta with
                    | none => .error .MissingKeeperAta
                    | some k =>
                      if ¬ (k.ownerProgram = TOKEN_PROGRAM_ID ∨
                            k.ownerProgram = TOKEN_2022_PROGRAM_ID) then
                        .error .MissingKeeperAta
                      else if k.key = acc.rover_fee_token_y ∨
                              k.key = acc.rover_fee_token_x ∨
                              k.key = acc.owner_token_x ∨
                              k.key = acc.owner_token_y then
                        .error .MissingKeeperAta
                      else if x_tip > 0 then
                        (if k.mint = acc.token_x_mint then .ok ()
                         else .error .MissingKeeperAta)
                      else
                        (if k.mint = acc.token_y_mint then .ok ()
                         else .error .MissingKeeperAta)
                  else .ok () : Except CoreError Unit) with
          | .error e => .error e
          | .ok _ =>
            let harvested := match pos.side with
              | .Buy => x_to_owner
              | .Sell => y_to_owner
            match chkAdd64 pos.harvested_amount harvested with
            | .error e => .error e
            | .ok pos_harvested =>
              match chkAdd64 cfg1.total_harvested harvested with
              | .error e => .error e
              | .ok cfg_harvested =>
                .ok {
                  config := { cfg1 with total_harvested := cfg_harvested }
                  position := { pos with harvested_amount := pos_harvested }
                  fromBin := fromBin
                  toBin := toBin
                  x_fee := x_fee
                  y_fee := y_fee
                  x_tip := x_tip
                  y_tip := y_tip
                  x_to_protocol := x_to_protocol
                  y_to_protocol := y_to_protocol
                  x_to_owner := x_to_owner
                  y_to_owner := y_to_owner
                  poolCpis := [.removeLiquidityByRange fromBin toBin 10000] })

/-- `harvest_bins`. `caller` is the `bot` signer; `clockSlot` is
`Clock::get()?.slot`; `x_before`/`y_before` are the vault token balances
snapshotted before the remove-liquidity CPI and `x_after`/`y_after` the
balances reloaded after it (the CPI outcome is an oracle input).
`keeperAta` is `remaining_accounts[0]` when supplied. -/
def harvest_bins (cfg : Config) (pos : Position) (caller clockSlot : Nat)
    (x_before y_before x_after y_after : Nat)
    (bin_ids : List Int) (keeperAta : Option KeeperAta) (acc : HarvestAccounts) :
    Except CoreError HarvestResult :=
  -- NOTE (from the source): harvest_bins is intentionally NOT gated by
  -- config.paused; paused gates open_position only.
  if bin_ids.isEmpty then .error .NoBinsProvided
  else if ¬ bin_ids.length ≤ 70 then .error .TooManyBins
  else if ¬ bin_ids.all (fun b => decide (pos.min_bin_id ≤ b ∧ b ≤ pos.max_bin_id)) then
    .error .BinOutOfPositionRange
  else
    match listMin bin_ids, listMax bin_ids with
    | some fromBin, some toBin =>
      -- Contiguity: remove_liquidity_by_range removes ALL bins in [fromBin, toBin].
      if ¬ (toBin - fromBin + 1 = (bin_ids.length : Int)) then .error .NonContiguousBins
      else
        -- Permissionless harvest fallback: authorized bot updates the
        -- heartbeat; anyone else must find the bot stale.
        (match harvest_author cfg caller clockSlot with
        | .error e => .error e
        | .ok cfg1 =>
          -- remove_liquidity_by_range2(from_bin, to_bin, 10_000) CPI happens here;
          -- the reloaded balances are x_after/y_after.
          let x_received := x_after - x_before   -- saturating_sub
          let y_received := y_after - y_before
          -- Fee on converted output only (delta-based), on the side
          -- selected by position.side.
          let converted := match pos.side with
            | .Buy => x_received
            | .Sell => y_received
          match chkMul128 converted cfg1.fee_bps with
          | .error e => .error e
          | .ok p =>
            let fee := u64cast (p / 10000)
            let x_fee := match pos.side with
              | .Buy => fee
              | .Sell => 0
            let y_fee := match pos.side with
              | .Buy => 0
              | .Sell => fee
            -- Keeper tip (permissionless only, carved out of the fee).
            if caller ≠ cfg1.bot ∧ cfg1.keeper_tip_bps > 0 then
              match chkMul128 x_fee cfg1.keeper_tip_bps with
              | .error e => .error e
              | .ok px =>
                match chkMul128 y_fee cfg1.keeper_tip_bps with
                | .error e => .error e
                | .ok py =>
                  harvest_finish cfg1 pos fromBin toBin x_after y_after x_fee y_fee
                    (u64cast (px / 10000)) (u64cast (py / 10000)) keeperAta acc
            else
              harvest_finish cfg1 pos fromBin toBin x_after y_after x_fee y_fee
                0 0 keeperAta acc)
    | _, _ => .error .NoBinsProvided

/-- A well-formed sample configuration used by concrete evaluations. -/
def cfgA : Config :=
  { authority := 1, pending_authority := 0, bot := 2, fee_bps := 30,
    pending_fee_bps := 0, fee_change_at := 0, total_positions := 0,
    total_volume := 0, paused := false, bot_paused := false,
    last_bot_harvest_slot := 0, keeper_tip_bps := 1000, priority_slots := 100,
    total_harvested := 0, pending_emergency_close := 0, emergency_close_at := 0,
    last_bot_close_slot := 0, last_bot_sweep_slot := 0 }

/-- A sample Sell-side position on bins [10,12]. -/
def posA : Position :=
  { owner := 3, lb_pair := 4, meteora_position := 5, side := .Sell,
    min_bin_id := 10, max_bin_id := 12, initial_amount := 100000,
    harvested_amount := 0, created_at := 0 }

/-- Sample harvest context account addresses (all distinct). -/
def accA : HarvestAccounts :=
  { rover_fee_token_x := 21, rover_fee_token_y := 22, owner_token_x := 23,
    owner_token_y := 24, token_x_mint := 25, token_y_mint := 26 }

-- Spec scenario: agent harvest converting 10,000 on the Sell side at
-- fee_bps = 30: fee 30, tip 0, owner 9,970, total_harvested 9,970.
example :
    ∃ r, harvest_bins cfgA posA 2 50 0 0 0 10000 [10, 11, 12] none accA = .ok r ∧
      r.y_fee = 30 ∧ r.y_tip = 0 ∧ r.y_to_protocol = 30 ∧ r.y_to_owner = 9970 ∧
      r.config.total_harvested = 9970 := by
  exact ⟨_, rfl, rfl, rfl, rfl, rfl, rfl⟩

-- Spec scenario: the same harvest via the permissionless fallback with
-- keeper_tip_bps = 1000: tip 3, protocol 27, owner 9,970.
example :
    ∃ r, harvest_bins cfgA posA 7 200 0 0 0 10000 [10, 11, 12]
        (some { key := 50, ownerProgram := TOKEN_PROGRAM_ID, mint := 26 }) accA = .ok r ∧
      r.y_fee = 30 ∧ r.y_tip = 3 ∧ r.y_to_protocol = 27 ∧ r.y_to_owner = 9970 := by
  exact ⟨_, rfl, rfl, rfl, rfl, rfl⟩

set_option maxHeartbeats 2000000 in
/-- `harvest_finish` only writes `total_harvested` into the
configuration it is given. -/
theorem harvest_finish_fee_fields {cfg1 : Config} {pos : Position}
    {fb tb : Int} {xa ya xf yf xt yt : Nat} {ka : Option KeeperAta}
    {acc : HarvestAccounts} {r : HarvestResult}
    (h : harvest_finish cfg1 pos fb tb xa ya xf yf xt yt ka acc = .ok r) :
    r.config.fee_bps = cfg1.fee_bps ∧ r.config.pending_fee_bps = cfg1.pending_fee_bps ∧
      r.config.keeper_tip_bps = cfg1.keeper_tip_bps := by
  unfold harvest_finish at h
  simp only [] at h
  repeat' split at h
  all_goals try exact Except.noConfusion h
  all_goals injection h with h
  all_goals subst h
  all_goals exact ⟨rfl, rfl, rfl⟩

set_option maxHeartbeats 2000000 in
/-- Accounting facts of a successful `harvest_finish`: the fee, tip and
split amounts it reports, and the exact distribution of both vault
balances. -/
theorem harvest_finish_payout {cfg1 : Config} {pos : Position}
    {fb tb : Int} {xa ya xf yf xt yt : Nat} {ka : Option KeeperAta}
    {acc : HarvestAccounts} {r : HarvestResult}
    (h : harvest_finish cfg1 pos fb tb xa ya xf yf xt yt ka acc = .ok r) :
    r.x_fee = xf ∧ r.y_fee = yf ∧ r.x_tip = xt ∧ r.y_tip = yt ∧
    xt ≤ xf ∧ yt ≤ yf ∧ xf ≤ xa ∧ yf ≤ ya ∧
    r.x_to_owner + r.x_to_protocol + r.x_tip = xa ∧
    r.y_to_owner + r.y_to_protocol + r.y_tip = ya := by
  unfold harvest_finish at h
  simp only [] at h
  repeat' split at h
  all_goals try exact Except.noConfusion h
  all_goals injection h with h
  all_goals subst h
  all_goals simp_all [chkSub64_ok, chkAdd64_ok]
  all_goals omega

/-- The authorization step never touches the fee or tip rates nor the
bot identity. -/
theorem harvest_author_fee_fields {cfg : Config} {caller clockSlot : Nat}
    {cfg1 : Config} (h : harvest_author cfg caller clockSlot = .ok cfg1) :
    cfg1.fee_bps = cfg.fee_bps ∧ cfg1.pending_fee_bps = cfg.pending_fee_bps ∧
      cfg1.keeper_tip_bps = cfg.keeper_tip_bps ∧ cfg1.bot = cfg.bot := by
  unfold harvest_author at h
  repeat' split at h
  all_goals try exact Except.noConfusion h
  all_goals injection h with h
  all_goals subst h
  all_goals exact ⟨rfl, rfl, rfl, rfl⟩

/-- Result of a successful close (`close_position` or `user_close`).
On success the `Position` and `Vault` records are destroyed by the
Anchor `close` constraints; `rentReceiver` collects the Meteora
position rent. -/
structure CloseResult where
  config : Config
  x_fee : Nat
  y_fee : Nat
  x_out : Nat
  y_out : Nat
  rentReceiver : Nat
  poolCpis : List PoolCpi
  deriving Repr, DecidableEq

/-- The authorization step of `close_position`: the configured bot is
admitted unless `bot_paused` and gets its close heartbeat updated; any
other caller is admitted only when the bot's close heartbeat is stale. -/
def close_author (cfg : Config) (caller clockSlot : Nat) : Except CoreError Config :=
  if caller = cfg.bot then
    (if cfg.bot_paused then .error .BotPaused
     else .ok { cfg with last_bot_close_slot := clockSlot })
  else
    match chkSub64 clockSlot cfg.last_bot_close_slot with
    | .error e => .error e
    | .ok slots_since =>
      if slots_since > cfg.priority_slots then .ok cfg
      else .error .BotNotStale

/-- `close_position` (agent-initiated close with permissionless fallback).
`ownerKey` is the `owner` account, constrained to `position.owner`;
`x_after`/`y_after` are the vault balances after the remove-all and
claim-fee CPIs (oracle inputs). -/
def close_position (cfg : Config) (pos : Position) (caller ownerKey clockSlot : Nat)
    (x_after y_after : Nat) : Except CoreError CloseResult :=
  if ownerKey ≠ pos.owner then .error .Unauthorized
  else
    match close_author cfg caller clockSlot with
    | .error e => .error e
    | .ok cfg1 =>
      -- CPIs: remove all liquidity, claim fees, close Meteora position (rent → bot).
      match execute_close_transfers pos.side cfg1.fee_bps x_after y_after with
      | .error e => .error e
      | .ok (x_fee, y_fee, x_out, y_out) =>
        let close_harvested := match pos.side with
          | .Buy => x_out
          | .Sell => y_out
        match chkAdd64 cfg1.total_harvested close_harvested with
        | .error e => .error e
        | .ok th =>
          .ok { config := { cfg1 with total_harvested := th }
                x_fee := x_fee, y_fee := y_fee, x_out := x_out, y_out := y_out
                rentReceiver := caller
                poolCpis := [.removeLiquidityByRange pos.min_bin_id pos.max_bin_id 10000,
                             .claimFee pos.min_bin_id pos.max_bin_id, .closePosition] }

/-- `user_close`: the owner closes their own position; never pausable and
not staleness-gated. The `UserClose` context constrains
`position.owner == user.key()`. -/
def user_close (cfg : Config) (pos : Position) (user : Nat)
    (x_after y_after : Nat) : Except CoreError CloseResult :=
  if pos.owner ≠ user then .error .Unauthorized
  else
    match execute_close_transfers pos.side cfg.fee_bps x_after y_after with
    | .error e => .error e
    | .ok (x_fee, y_fee, x_out, y_out) =>
      let close_harvested := match pos.side with
        | .Buy => x_out
        | .Sell => y_out
      match chkAdd64 cfg.total_harvested close_harvested with
      | .error e => .error e
      | .ok th =>
        .ok { config := { cfg with total_harvested := th }
              x_fee := x_fee, y_fee := y_fee, x_out := x_out, y_out := y_out
              rentReceiver := user
              poolCpis := [.removeLiquidityByRange pos.min_bin_id pos.max_bin_id 10000,
                           .claimFee pos.min_bin_id pos.max_bin_id, .closePosition] }

/-- Result of `claim_fees`: the claimed amounts forwarded to the user. -/
structure ClaimFeesResult where
  x_to_user : Nat
  y_to_user : Nat
  poolCpis : List PoolCpi
  deriving Repr, DecidableEq

/-- `claim_fees`: owner-only; the claimed trading fees pass through the
vault to the user with no protocol fee. The `ClaimFees` context carries
no `Config` account at all, so the handler cannot even observe `paused`;
the `cfg` parameter is present only to state that independence.
`x_claimed`/`y_claimed` are the vault balances after the claim-fee CPI. -/
def claim_fees (_cfg : Config) (pos : Position) (user : Nat)
    (x_claimed y_claimed : Nat) : Except CoreError ClaimFeesResult :=
  if pos.owner ≠ user then .error .Unauthorized
  else
    .ok { x_to_user := x_claimed, y_to_user := y_claimed
          poolCpis := [.claimFee pos.min_bin_id pos.max_bin_id] }

/-- Result of a successful open. -/
structure OpenResult where
  config : Config
  position : Position
  depositX : Nat
  depositY : Nat
  poolCpis : List PoolCpi
  deriving Repr, DecidableEq

/-- The precondition chain of `open_position_v2`, one `require!` (or
in-handler account validation) per guard, in source order. -/
def open_position_v2_checks (cfg : Config) (user amount : Nat)
    (min_bin_id max_bin_id : Int) (max_active_bin_slippage : Int)
    (dlmmProgram : Nat) (userTokenOwner vaultXOwner vaultYOwner vaultKey : Nat)
    (activeId : Int) : Except CoreError Unit :=
  if cfg.paused then .error .Paused
  else if amount = 0 then .error .ZeroAmount
  else if amount < MIN_POSITION_AMOUNT then .error .PositionTooSmall
  else if ¬ (0 ≤ max_active_bin_slippage ∧ max_active_bin_slippage ≤ 20) then
    .error .InvalidSlippage
  else if ¬ min_bin_id ≤ max_bin_id then .error .InvalidBinRange
  else if ¬ (max_bin_id - min_bin_id + 1 ≤ MAX_POSITION_WIDTH) then .error .PositionTooWide
  else if dlmmProgram ≠ METEORA_DLMM_PROGRAM_ID then .error .InvalidProgram
  else if userTokenOwner ≠ user then .error .InvalidTokenOwner
  else if vaultXOwner ≠ vaultKey then .error .InvalidTokenOwner
  else if vaultYOwner ≠ vaultKey then .error .InvalidTokenOwner
  else if ¬ (-443636 < activeId ∧ activeId < 443636) then .error .InvalidBinRange
  else .ok ()

/-- `open_position_v2`. `sideParam` is the caller-supplied `_side`
argument; `activeId` is the live `active_id` read from the `lb_pair`
account's own data; `userTokenOwner`/`vaultXOwner`/`vaultYOwner` are the
owners recorded in the raw token-account state. -/
def open_position_v2 (cfg : Config) (user : Nat) (amount : Nat)
    (min_bin_id max_bin_id : Int) (sideParam : Side) (max_active_bin_slippage : Int)
    (dlmmProgram : Nat) (userTokenOwner vaultXOwner vaultYOwner vaultKey : Nat)
    (activeId : Int) (lbPair meteoraPos : Nat) (now : Int) :
    Except CoreError OpenResult :=
  match open_position_v2_checks cfg user amount min_bin_id max_bin_id
      max_active_bin_slippage dlmmProgram userTokenOwner vaultXOwner
      vaultYOwner vaultKey activeId with
  | .error e => .error e
  | .ok _ =>
    -- Side derived from the on-chain active_id; `sideParam` is never read.
    let side := if min_bin_id > activeId then Side.Sell else Side.Buy
    let amount_x := if side = Side.Sell then amount else 0
    let amount_y := if side = Side.Sell then 0 else amount
    .ok { config := { cfg with
            total_positions := satAdd64 cfg.total_positions 1
            total_volume := satAdd64 cfg.total_volume amount }
          position := { owner := user, lb_pair := lbPair, meteora_position := meteoraPos
                        side := side, min_bin_id := min_bin_id, max_bin_id := max_bin_id
                        initial_amount := amount, harvested_amount := 0, created_at := now }
          depositX := amount_x
          depositY := amount_y
          poolCpis := [.initializePosition min_bin_id (max_bin_id - min_bin_id + 1),
                       .addLiquidity] }

/-- Result of a successful rover open. -/
structure RoverOpenResult where
  config : Config
  rover : RoverAuthority
  position : Position
  poolCpis : List PoolCpi
  deriving Repr, DecidableEq

/-- The precondition chain of `open_rover_position`, in source order. -/
def open_rover_position_checks (cfg : Config) (depositor amount bin_step : Nat)
    (depTokenOwner vaultXOwner vaultKey : Nat) (activeId : Int)
    (remainingLen dlmmProgram : Nat) : Except CoreError Unit :=
  if cfg.paused then .error .Paused
  else if amount = 0 then .error .ZeroAmount
  else if amount < MIN_ROVER_DEPOSIT then .error .RoverDepositTooSmall
  else if bin_step < MIN_ROVER_BIN_STEP then .error .RoverBinStepTooSmall
  else if depTokenOwner ≠ depositor then .error .InvalidTokenOwner
  else if vaultXOwner ≠ vaultKey then .error .InvalidTokenOwner
  else if ¬ (-443636 < activeId ∧ activeId < 443636) then .error .InvalidBinRange
  else if remainingLen < 2 then .error .NoBinsProvided
  else if dlmmProgram ≠ METEORA_DLMM_PROGRAM_ID then .error .InvalidProgram
  else .ok ()

/-- `open_rover_position`: permissionless Sell-side bribe position owned
by the rover authority; range is computed from the live `activeId`
(≈2x price, capped at `MAX_POSITION_WIDTH`). -/
def open_rover_position (cfg : Config) (rover : RoverAuthority)
    (depositor : Nat) (amount bin_step : Nat)
    (depTokenOwner vaultXOwner vaultKey : Nat) (activeId : Int)
    (remainingLen : Nat) (dlmmProgram roverKey lbPair meteoraPos : Nat)
    (now : Int) : Except CoreError RoverOpenResult :=
  match open_rover_position_checks cfg depositor amount bin_step depTokenOwner
      vaultXOwner vaultKey activeId remainingLen dlmmProgram with
  | .error e => .error e
  | .ok _ =>
    let bins_for_2x : Int := 6931 / (bin_step : Int)
    let width : Int :=
      if bins_for_2x < 1 then 1
      else if bins_for_2x > MAX_POSITION_WIDTH then MAX_POSITION_WIDTH
      else bins_for_2x
    let min_bin_id := activeId + 1
    let max_bin_id := min_bin_id + width - 1
    .ok { config := { cfg with
            total_positions := satAdd64 cfg.total_positions 1
            total_volume := satAdd64 cfg.total_volume amount }
          rover := { rover with
            total_rover_positions := satAdd64 rover.total_rover_positions 1 }
          position := { owner := roverKey, lb_pair := lbPair, meteora_position := meteoraPos
                        side := .Sell, min_bin_id := min_bin_id, max_bin_id := max_bin_id
                        initial_amount := amount, harvested_amount := 0, created_at := now }
          poolCpis := [.initializePosition min_bin_id width, .addLiquidity] }

/-- `i32::checked_add`-style guard used by `open_fee_rover`'s bin
arithmetic (`None` mapped to `CoreError::Overflow`). -/
def chkI32 (n : Int) : Except CoreError Int :=
  if -(2 ^ 31) ≤ n ∧ n < 2 ^ 31 then .ok n else .error .Overflow

/-- `open_fee_rover`: agent-only rover position funded from the rover
authority's accumulated fee balance. Not gated by `config.paused`.
The `OpenFeeRover` context constrains `bot.key() == config.bot`. -/
def open_fee_rover (cfg : Config) (rover : RoverAuthority)
    (bot : Nat) (amount bin_step : Nat) (vaultXOwner vaultKey : Nat)
    (activeId : Int) (remainingLen : Nat)
    (dlmmProgram roverKey lbPair meteoraPos : Nat) (now : Int) :
    Except CoreError RoverOpenResult :=
  if bot ≠ cfg.bot then .error .Unauthorized
  else if amount = 0 then .error .ZeroAmount
  else if bin_step < MIN_ROVER_BIN_STEP then .error .RoverBinStepTooSmall
  else if vaultXOwner ≠ vaultKey then .error .InvalidTokenOwner
  else if ¬ (-443636 < activeId ∧ activeId < 443636) then .error .InvalidBinRange
  else if remainingLen < 2 then .error .NoBinsProvided
  else if dlmmProgram ≠ METEORA_DLMM_PROGRAM_ID then .error .InvalidProgram
  else
    match chkI32 (activeId + 1) with
    | .error e => .error e
    | .ok min_bin_id =>
      let width : Int := min 70 (max 1 (6931 / (bin_step : Int)))
      match chkI32 (min_bin_id + width) with
      | .error e => .error e
      | .ok s =>
        match chkI32 (s - 1) with
        | .error e => .error e
        | .ok max_bin_id =>
          .ok { config := { cfg with
                  total_positions := satAdd64 cfg.total_positions 1
                  total_volume := satAdd64 cfg.total_volume amount }
                rover := { rover with
                  total_rover_positions := satAdd64 rover.total_rover_positions 1 }
                position := { owner := roverKey, lb_pair := lbPair
                              meteora_position := meteoraPos, side := .Sell
                              min_bin_id := min_bin_id, max_bin_id := max_bin_id
                              initial_amount := amount, harvested_amount := 0
                              created_at := now }
                poolCpis := [.initializePosition min_bin_id width, .addLiquidity] }

/-- Result of `apply_emergency_close`: remaining vault balances go to the
position owner; Position and Vault records are destroyed (their rent goes
to the permissionless `caller`); no pool CPI is issued. -/
structure EmergencyCloseResult where
  config : Config
  x_to_owner : Nat
  y_to_owner : Nat
  positionRentTo : Nat
  vaultRentTo : Nat
  poolCpis : List PoolCpi
  deriving Repr, DecidableEq

/-- `apply_emergency_close`: permissionless after the 24h timelock;
bypasses the pool entirely. Context constraints: the position account is
the pending target, `owner` matches `position.owner`, and the four token
accounts have the recorded owners. -/
def apply_emergency_close (cfg : Config) (pos : Position)
    (caller positionKey ownerKey : Nat)
    (vault_x_amount vault_y_amount : Nat)
    (vtxOwner vtyOwner vaultKey ownXOwner ownYOwner : Nat)
    (now : Int) : Except CoreError EmergencyCloseResult :=
  if positionKey ≠ cfg.pending_emergency_close then .error .InvalidPosition
  else if ownerKey ≠ pos.owner then .error .Unauthorized
  else if vtxOwner ≠ vaultKey then .error .InvalidTokenOwner
  else if vtyOwner ≠ vaultKey then .error .InvalidTokenOwner
  else if ownXOwner ≠ pos.owner then .error .InvalidTokenOwner
  else if ownYOwner ≠ pos.owner then .error .InvalidTokenOwner
  else if ¬ cfg.emergency_close_at > 0 then .error .NoPendingEmergencyClose
  else if now < cfg.emergency_close_at then .error .EmergencyCloseTimelockNotExpired
  else
    .ok { config := { cfg with pending_emergency_close := 0, emergency_close_at := 0 }
          x_to_owner := vault_x_amount
          y_to_owner := vault_y_amount
          positionRentTo := caller
          vaultRentTo := caller
          poolCpis := [] }

/-- `pause` (AdminOnly). -/
def pause (cfg : Config) (authority : Nat) : Except CoreError Config :=
  if authority ≠ cfg.authority then .error .Unauthorized
  else .ok { cfg with paused := true }

/-- `unpause` (AdminOnly). -/
def unpause (cfg : Config) (authority : Nat) : Except CoreError Config :=
  if authority ≠ cfg.authority then .error .Unauthorized
  else .ok { cfg with paused := false }

/-- `bot_pause` (AdminOnly). -/
def bot_pause (cfg : Config) (authority : Nat) : Except CoreError Config :=
  if authority ≠ cfg.authority then .error .Unauthorized
  else .ok { cfg with bot_paused := true }

/-- `bot_unpause` (AdminOnly). -/
def bot_unpause (cfg : Config) (authority : Nat) : Except CoreError Config :=
  if authority ≠ cfg.authority then .error .Unauthorized
  else .ok { cfg with bot_paused := false }

/-- `update_bot` (AdminOnly). -/
def update_bot (cfg : Config) (authority new_bot : Nat) : Except CoreError Config :=
  if authority ≠ cfg.authority then .error .Unauthorized
  else .ok { cfg with bot := new_bot }

/-- `update_keeper_tip_bps` (AdminOnly, capped at 50%). -/
def update_keeper_tip_bps (cfg : Config) (authority new_bps : Nat) :
    Except CoreError Config :=
  if authority ≠ cfg.authority then .error .Unauthorized
  else if ¬ new_bps ≤ 5000 then .error .FeeTooHigh
  else .ok { cfg with keeper_tip_bps := new_bps }

/-- `update_priority_slots` (AdminOnly, capped to keep the fallback alive). -/
def update_priority_slots (cfg : Config) (authority : Nat) (new_slots : Nat) :
    Except CoreError Config :=
  if authority ≠ cfg.authority then .error .Unauthorized
  else if ¬ new_slots ≤ 9000 then .error .PrioritySlotsExceedMax
  else .ok { cfg with priority_slots := new_slots }

/-- `propose_fee` (AdminOnly): sets the pending fee and a 24h-out
effective timestamp; overwrites any prior pending change. The source's
`checked_add(86_400)` on an `i64` timestamp is modelled as exact `Int`
addition (its `None` branch is unreachable off the `i64` boundary). -/
def propose_fee (cfg : Config) (authority : Nat) (new_fee_bps : Nat) (now : Int) :
    Except CoreError Config :=
  if authority ≠ cfg.authority then .error .Unauthorized
  else if ¬ new_fee_bps ≤ 1000 then .error .FeeTooHigh
  else .ok { cfg with pending_fee_bps := new_fee_bps, fee_change_at := now + 86400 }

/-- `apply_fee`: permissionless; requires a pending change whose timelock
has elapsed. -/
def apply_fee (cfg : Config) (now : Int) : Except CoreError Config :=
  if ¬ cfg.fee_change_at > 0 then .error .NoPendingFeeChange
  else if now < cfg.fee_change_at then .error .FeeTimelockNotExpired
  else .ok { cfg with fee_bps := cfg.pending_fee_bps, pending_fee_bps := 0,
                      fee_change_at := 0 }

/-- `cancel_pending_fee` (AdminOnly). -/
def cancel_pending_fee (cfg : Config) (authority : Nat) : Except CoreError Config :=
  if authority ≠ cfg.authority then .error .Unauthorized
  else if ¬ cfg.fee_change_at > 0 then .error .NoPendingFeeChange
  else .ok { cfg with pending_fee_bps := 0, fee_change_at := 0 }

/-- `transfer_authority` (AdminOnly): step 1 of the two-step transfer. -/
def transfer_authority (cfg : Config) (authority new_authority : Nat) :
    Except CoreError Config :=
  if authority ≠ cfg.authority then .error .Unauthorized
  else .ok { cfg with pending_authority := new_authority }

/-- `accept_authority`: the pending authority itself must sign. -/
def accept_authority (cfg : Config) (new_authority : Nat) : Except CoreError Config :=
  if new_authority ≠ cfg.pending_authority then .error .Unauthorized
  else if cfg.pending_authority = 0 then .error .NoPendingAuthority
  else .ok { cfg with authority := cfg.pending_authority, pending_authority := 0 }

/-- `propose_emergency_close` (AdminOnly): names a position and starts the
24h timelock. -/
def propose_emergency_close (cfg : Config) (authority position_key : Nat) (now : Int) :
    Except CoreError Config :=
  if authority ≠ cfg.authority then .error .Unauthorized
  else .ok { cfg with pending_emergency_close := position_key
                      emergency_close_at := now + 86400 }

/-- `propose_revenue_dest` (authority-gated via the config): timelocked
change of the rover sweep destination. -/
def propose_revenue_dest (cfg : Config) (rover : RoverAuthority)
    (authority new_revenue_dest : Nat) (now : Int) :
    Except CoreError RoverAuthority :=
  if authority ≠ cfg.authority then .error .Unauthorized
  else if new_revenue_dest = 0 then .error .InvalidDistPool
  else .ok { rover with pending_revenue_dest := new_revenue_dest
                        revenue_dest_change_at := now + 86400 }

/-- `apply_revenue_dest`: permissionless after the 24h timelock. -/
def apply_revenue_dest (rover : RoverAuthority) (now : Int) :
    Except CoreError RoverAuthority :=
  if ¬ rover.revenue_dest_change_at > 0 then .error .NoPendingFeeChange
  else if now < rover.revenue_dest_change_at then .error .FeeTimelockNotExpired
  else .ok { rover with revenue_dest := rover.pending_revenue_dest
                        pending_revenue_dest := 0
                        revenue_dest_change_at := 0 }

/-- `cancel_pending_revenue_dest` (authority-gated). -/
def cancel_pending_revenue_dest (cfg : Config) (rover : RoverAuthority)
    (authority : Nat) : Except CoreError RoverAuthority :=
  if authority ≠ cfg.authority then .error .Unauthorized
  else if ¬ rover.revenue_dest_change_at > 0 then .error .NoPendingFeeChange
  else .ok { rover with pending_revenue_dest := 0, revenue_dest_change_at := 0 }

/-- `sweep_rover`: permissionless; moves the rover authority's lamports
above the rent floor to the revenue destination; tracks a heartbeat when
agent-initiated. `roverLamports` and `rentMinimum` are runtime values. -/
def sweep_rover (cfg : Config) (caller clockSlot : Nat)
    (roverLamports rentMinimum : Nat) : Except CoreError (Config × Nat) :=
  let cfg1 := if caller = cfg.bot then { cfg with last_bot_sweep_slot := clockSlot } else cfg
  let sweepable := roverLamports - rentMinimum   -- saturating_sub
  if ¬ sweepable > 0 then .error .NothingToSweep
  else .ok (cfg1, sweepable)

/-- One instruction of the program, carrying every argument and oracle
value its handler consumes, restricted to the instructions whose context
takes the `Config` account mutably (the remaining instructions —
`claim_fees`, rover initialization, the `revenue_dest` ops,
`close_rover_token_account`, `claim_pool_fees` — take `Config` read-only
or not at all and cannot write it). -/
inductive Ix where
  | openPositionV2 (user amount : Nat) (minB maxB : Int) (sideParam : Side)
      (slip : Int) (dlmm uOwn vxOwn vyOwn vKey : Nat) (activeId : Int)
      (lbPair mPos : Nat) (now : Int)
  | harvestBins (pos : Position) (caller clockSlot xb yb xa ya : Nat)
      (bins : List Int) (ka : Option KeeperAta) (acc : HarvestAccounts)
  | closePositionIx (pos : Position) (caller ownerKey clockSlot xa ya : Nat)
  | userCloseIx (pos : Position) (user xa ya : Nat)
  | pauseIx (a : Nat)
  | unpauseIx (a : Nat)
  | botPauseIx (a : Nat)
  | botUnpauseIx (a : Nat)
  | updateBotIx (a nb : Nat)
  | updateKeeperTipIx (a n : Nat)
  | updatePrioritySlotsIx (a n : Nat)
  | proposeFeeIx (a n : Nat) (now : Int)
  | applyFeeIx (now : Int)
  | cancelFeeIx (a : Nat)
  | transferAuthorityIx (a na : Nat)
  | acceptAuthorityIx (na : Nat)
  | proposeEmergencyCloseIx (a pk : Nat) (now : Int)
  | applyEmergencyCloseIx (pos : Position) (caller pk okey vx vy vtx vty vk ox oy : Nat)
      (now : Int)
  | openRoverIx (rover : RoverAuthority) (dep amount binStep dOwn vxOwn vKey : Nat)
      (activeId : Int) (rem dlmm rKey lbPair mPos : Nat) (now : Int)
  | openFeeRoverIx (rover : RoverAuthority) (bot amount binStep vxOwn vKey : Nat)
      (activeId : Int) (rem dlmm rKey lbPair mPos : Nat) (now : Int)
  | sweepRoverIx (caller slot lam rent : Nat)

/-- The `Config` each transaction leaves behind: the handler's updated
config on success, the unchanged config on abort (runtime atomicity). -/
def stepConfig (c : Config) : Ix → Config
  | .openPositionV2 u am minB maxB sp sl dl uo vx vy vk act lp mp now =>
      match open_position_v2 c u am minB maxB sp sl dl uo vx vy vk act lp mp now with
      | .ok r => r.config
      | .error _ => c
  | .harvestBins pos caller slot xb yb xa ya bins ka acc =>
      match harvest_bins c pos caller slot xb yb xa ya bins ka acc with
      | .ok r => r.config
      | .error _ => c
  | .closePositionIx pos caller okey slot xa ya =>
      match close_position c pos caller okey slot xa ya with
      | .ok r => r.config
      | .error _ => c
  | .userCloseIx pos user xa ya =>
      match user_close c pos user xa ya with
      | .ok r => r.config
      | .error _ => c
  | .pauseIx a =>
      match pause c a with
      | .ok c' => c'
      | .error _ => c
  | .unpauseIx a =>
      match unpause c a with
      | .ok c' => c'
      | .error _ => c
  | .botPauseIx a =>
      match bot_pause c a with
      | .ok c' => c'
      | .error _ => c
  | .botUnpauseIx a =>
      match bot_unpause c a with
      | .ok c' => c'
      | .error _ => c
  | .updateBotIx a nb =>
      match update_bot c a nb with
      | .ok c' => c'
      | .error _ => c
  | .updateKeeperTipIx a n =>
      match update_keeper_tip_bps c a n with
      | .ok c' => c'
      | .error _ => c
  | .updatePrioritySlotsIx a n =>
      match update_priority_slots c a n with
      | .ok c' => c'
      | .error _ => c
  | .proposeFeeIx a n now =>
      match propose_fee c a n now with
      | .ok c' => c'
      | .error _ => c
  | .applyFeeIx now =>
      match apply_fee c now with
      | .ok c' => c'
      | .error _ => c
  | .cancelFeeIx a =>
      match cancel_pending_fee c a with
      | .ok c' => c'
      | .error _ => c
  | .transferAuthorityIx a na =>
      match transfer_authority c a na with
      | .ok c' => c'
      | .error _ => c
  | .acceptAuthorityIx na =>
      match accept_authority c na with
      | .ok c' => c'
      | .error _ => c
  | .proposeEmergencyCloseIx a pk now =>
      match propose_emergency_close c a pk now with
      | .ok c' => c'
      | .error _ => c
  | .applyEmergencyCloseIx pos caller pk okey vx vy vtx vty vk ox oy now =>
      match apply_emergency_close c pos caller pk okey vx vy vtx vty vk ox oy now with
      | .ok r => r.config
      | .error _ => c
  | .openRoverIx rover dep amount binStep dOwn vxOwn vKey act rem dlmm rKey lp mp now =>
      match open_rover_position c rover dep amount binStep dOwn vxOwn vKey act rem
          dlmm rKey lp mp now with
      | .ok r => r.config
      | .error _ => c
  | .openFeeRoverIx rover bot amount binStep vxOwn vKey act rem dlmm rKey lp mp now =>
      match open_fee_rover c rover bot amount binStep vxOwn vKey act rem dlmm rKey
          lp mp now with
      | .ok r => r.config
      | .error _ => c
  | .sweepRoverIx caller slot lam rent =>
      match sweep_rover c caller slot lam rent with
      | .ok p => p.1
      | .error _ => c

/-- The configuration after a sequence of transactions. -/
def runConfig (c : Config) (ops : List Ix) : Config := ops.foldl stepConfig c

/-- The fee/tip bounds the spec states as a global invariant. -/
def ConfigInv (c : Config) : Prop :=
  c.fee_bps ≤ 1000 ∧ c.pending_fee_bps ≤ 1000 ∧ c.keeper_tip_bps ≤ 5000

set_option maxHeartbeats 8000000 in
/-- A successful harvest leaves the fee-rate and tip-rate fields of the
configuration untouched (it only writes the heartbeat and the cumulative
counter). -/
theorem harvest_bins_fee_fields {cfg : Config} {pos : Position}
    {caller clockSlot xb yb xa ya : Nat} {bins : List Int}
    {ka : Option KeeperAta} {acc : HarvestAccounts} {r : HarvestResult}
    (h : harvest_bins cfg pos caller clockSlot xb yb xa ya bins ka acc = .ok r) :
    r.config.fee_bps = cfg.fee_bps ∧ r.config.pending_fee_bps = cfg.pending_fee_bps ∧
      r.config.keeper_tip_bps = cfg.keeper_tip_bps := by
  unfold harvest_bins at h
  simp only [] at h
  repeat' split at h
  all_goals try exact Except.noConfusion h
  all_goals obtain ⟨a1, a2, a3, a4⟩ := harvest_author_fee_fields (by assumption)
  all_goals obtain ⟨f1, f2, f3⟩ := harvest_finish_fee_fields h
  all_goals exact ⟨f1.trans a1, f2.trans a2, f3.trans a3⟩

/-- The close authorization step never touches the fee or tip rates. -/
theorem close_author_fee_fields {cfg : Config} {caller clockSlot : Nat}
    {cfg1 : Config} (h : close_author cfg caller clockSlot = .ok cfg1) :
    cfg1.fee_bps = cfg.fee_bps ∧ cfg1.pending_fee_bps = cfg.pending_fee_bps ∧
      cfg1.keeper_tip_bps = cfg.keeper_tip_bps := by
  unfold close_author at h
  repeat' split at h
  all_goals try exact Except.noConfusion h
  all_goals injection h with h
  all_goals subst h
  all_goals exact ⟨rfl, rfl, rfl⟩

/-- A successful agent/fallback close leaves the fee and tip rates
untouched. -/
theorem close_position_fee_fields {cfg : Config} {pos : Position}
    {caller ownerKey clockSlot xa ya : Nat} {r : CloseResult}
    (h : close_position cfg pos caller ownerKey clockSlot xa ya = .ok r) :
    r.config.fee_bps = cfg.fee_bps ∧ r.config.pending_fee_bps = cfg.pending_fee_bps ∧
      r.config.keeper_tip_bps = cfg.keeper_tip_bps := by
  unfold close_position execute_close_transfers at h
  simp only [] at h
  repeat' split at h
  all_goals try exact Except.noConfusion h
  all_goals obtain ⟨a1, a2, a3⟩ := close_author_fee_fields (by assumption)
  all_goals injection h with h
  all_goals subst h
  all_goals exact ⟨a1, a2, a3⟩

/-- A successful user close leaves the fee and tip rates untouched. -/
theorem user_close_fee_fields {cfg : Config} {pos : Position}
    {user xa ya : Nat} {r : CloseResult}
    (h : user_close cfg pos user xa ya = .ok r) :
    r.config.fee_bps = cfg.fee_bps ∧ r.config.pending_fee_bps = cfg.pending_fee_bps ∧
      r.config.keeper_tip_bps = cfg.keeper_tip_bps := by
  unfold user_close execute_close_transfers at h
  simp only [] at h
  repeat' split at h
  all_goals try exact Except.noConfusion h
  all_goals injection h with h
  all_goals subst h
  all_goals exact ⟨rfl, rfl, rfl⟩

/-- A successful open leaves the fee and tip rates untouched. -/
theorem open_position_v2_fee_fields {cfg : Config} {user amount : Nat}
    {minB maxB : Int} {sp : Side} {sl : Int} {dl uo vx vy vk : Nat}
    {act : Int} {lp mp : Nat} {now : Int} {r : OpenResult}
    (h : open_position_v2 cfg user amount minB maxB sp sl dl uo vx vy vk act lp mp now
          = .ok r) :
    r.config.fee_bps = cfg.fee_bps ∧ r.config.pending_fee_bps = cfg.pending_fee_bps ∧
      r.config.keeper_tip_bps = cfg.keeper_tip_bps := by
  unfold open_position_v2 at h
  split at h
  all_goals try exact Except.noConfusion h
  all_goals injection h with h
  all_goals subst h
  all_goals exact ⟨rfl, rfl, rfl⟩

/-- A successful rover open leaves the fee and tip rates untouched. -/
theorem open_rover_position_fee_fields {cfg : Config} {rover : RoverAuthority}
    {dep amount binStep dOwn vxOwn vKey : Nat} {act : Int}
    {rem dlmm rKey lp mp : Nat} {now : Int} {r : RoverOpenResult}
    (h : open_rover_position cfg rover dep amount binStep dOwn vxOwn vKey act rem
          dlmm rKey lp mp now = .ok r) :
    r.config.fee_bps = cfg.fee_bps ∧ r.config.pending_fee_bps = cfg.pending_fee_bps ∧
      r.config.keeper_tip_bps = cfg.keeper_tip_bps := by
  unfold open_rover_position at h
  repeat' split at h
  all_goals try exact Except.noConfusion h
  all_goals injection h with h
  all_goals subst h
  all_goals exact ⟨rfl, rfl, rfl⟩

/-- A successful fee-rover open leaves the fee and tip rates untouched. -/
theorem open_fee_rover_fee_fields {cfg : Config} {rover : RoverAuthority}
    {bot amount binStep vxOwn vKey : Nat} {act : Int}
    {rem dlmm rKey lp mp : Nat} {now : Int} {r : RoverOpenResult}
    (h : open_fee_rover cfg rover bot amount binStep vxOwn vKey act rem dlmm rKey
          lp mp now = .ok r) :
    r.config.fee_bps = cfg.fee_bps ∧ r.config.pending_fee_bps = cfg.pending_fee_bps ∧
      r.config.keeper_tip_bps = cfg.keeper_tip_bps := by
  unfold open_fee_rover chkI32 at h
  simp only [] at h
  repeat' split at h
  all_goals try exact Except.noConfusion h
  all_goals injection h with h
  all_goals subst h
  all_goals exact ⟨rfl, rfl, rfl⟩

/-- A successful emergency close leaves the fee and tip rates untouched. -/
theorem apply_emergency_close_fee_fields {cfg : Config} {pos : Position}
    {caller pk okey vx vy vtx vty vk ox oy : Nat} {now : Int}
    {r : EmergencyCloseResult}
    (h : apply_emergency_close cfg pos caller pk okey vx vy vtx vty vk ox oy now
          = .ok r) :
    r.config.fee_bps = cfg.fee_bps ∧ r.config.pending_fee_bps = cfg.pending_fee_bps ∧
      r.config.keeper_tip_bps = cfg.keeper_tip_bps := by
  unfold apply_emergency_close at h
  repeat' split at h
  all_goals try exact Except.noConfusion h
  all_goals injection h with h
  all_goals subst h
  all_goals exact ⟨rfl, rfl, rfl⟩

/-- A successful sweep leaves the fee and tip rates untouched. -/
theorem sweep_rover_fee_fields {cfg : Config} {caller slot lam rent : Nat}
    {p : Config × Nat}
    (h : sweep_rover cfg caller slot lam rent = .ok p) :
    p.1.fee_bps = cfg.fee_bps ∧ p.1.pending_fee_bps = cfg.pending_fee_bps ∧
      p.1.keeper_tip_bps = cfg.keeper_tip_bps := by
  unfold sweep_rover at h
  simp only [] at h
  repeat' split at h
  all_goals try exact Except.noConfusion h
  all_goals injection h with h
  all_goals subst h
  all_goals exact ⟨rfl, rfl, rfl⟩

/-- Transport of the invariant along any equality of the three fields. -/
theorem ConfigInv.of_fields {c c' : Config} (hc : ConfigInv c)
    (h1 : c'.fee_bps = c.fee_bps) (h2 : c'.pending_fee_bps = c.pending_fee_bps)
    (h3 : c'.keeper_tip_bps = c.keeper_tip_bps) : ConfigInv c' :=
  ⟨h1 ▸ hc.1, h2 ▸ hc.2.1, h3 ▸ hc.2.2⟩

/-- Every instruction preserves the fee/tip bounds. -/
theorem stepConfig_inv {c : Config} (hc : ConfigInv c) (op : Ix) :
    ConfigInv (stepConfig c op) := by
  cases op with
  | openPositionV2 u am minB maxB sp sl dl uo vx vy vk act lp mp now =>
    simp only [stepConfig]
    split
    · next r hr =>
        obtain ⟨e1, e2, e3⟩ := open_position_v2_fee_fields hr
        exact hc.of_fields e1 e2 e3
    · exact hc
  | harvestBins pos caller slot xb yb xa ya bins ka acc =>
    simp only [stepConfig]
    split
    · next r hr =>
        obtain ⟨e1, e2, e3⟩ := harvest_bins_fee_fields hr
        exact hc.of_fields e1 e2 e3
    · exact hc
  | closePositionIx pos caller okey slot xa ya =>
    simp only [stepConfig]
    split
    · next r hr =>
        obtain ⟨e1, e2, e3⟩ := close_position_fee_fields hr
        exact hc.of_fields e1 e2 e3
    · exact hc
  | userCloseIx pos user xa ya =>
    simp only [stepConfig]
    split
    · next r hr =>
        obtain ⟨e1, e2, e3⟩ := user_close_fee_fields hr
        exact hc.of_fields e1 e2 e3
    · exact hc
  | pauseIx a =>
    simp only [stepConfig]
    split
    · next c' hk =>
        unfold pause at hk
        split at hk
        · exact Except.noConfusion hk
        · injection hk with hk; subst hk; exact hc
    · exact hc
  | unpauseIx a =>
    simp only [stepConfig]
    split
    · next c' hk =>
        unfold unpause at hk
        split at hk
        · exact Except.noConfusion hk
        · injection hk with hk; subst hk; exact hc
    · exact hc
  | botPauseIx a =>
    simp only [stepConfig]
    split
    · next c' hk =>
        unfold bot_pause at hk
        split at hk
        · exact Except.noConfusion hk
        · injection hk with hk; subst hk; exact hc
    · exact hc
  | botUnpauseIx a =>
    simp only [stepConfig]
    split
    · next c' hk =>
        unfold bot_unpause at hk
        split at hk
        · exact Except.noConfusion hk
        · injection hk with hk; subst hk; exact hc
    · exact hc
  | updateBotIx a nb =>
    simp only [stepConfig]
    split
    · next c' hk =>
        unfold update_bot at hk
        split at hk
        · exact Except.noConfusion hk
        · injection hk with hk; subst hk; exact hc
    · exact hc
  | updateKeeperTipIx a n =>
    simp only [stepConfig]
    split
    · next c' hk =>
        unfold update_keeper_tip_bps at hk
        repeat' split at hk
        all_goals try exact Except.noConfusion hk
        injection hk with hk; subst hk
        refine ⟨hc.1, hc.2.1, ?_⟩
        dsimp only
        omega
    · exact hc
  | updatePrioritySlotsIx a n =>
    simp only [stepConfig]
    split
    · next c' hk =>
        unfold update_priority_slots at hk
        repeat' split at hk
        all_goals try exact Except.noConfusion hk
        injection hk with hk; subst hk; exact hc
    · exact hc
  | proposeFeeIx a n now =>
    simp only [stepConfig]
    split
    · next c' hk =>
        unfold propose_fee at hk
        repeat' split at hk
        all_goals try exact Except.noConfusion hk
        injection hk with hk; subst hk
        refine ⟨hc.1, ?_, hc.2.2⟩
        dsimp only
        omega
    · exact hc
  | applyFeeIx now =>
    simp only [stepConfig]
    split
    · next c' hk =>
        unfold apply_fee at hk
        repeat' split at hk
        all_goals try exact Except.noConfusion hk
        injection hk with hk; subst hk
        exact ⟨hc.2.1, Nat.zero_le _, hc.2.2⟩
    · exact hc
  | cancelFeeIx a =>
    simp only [stepConfig]
    split
    · next c' hk =>
        unfold cancel_pending_fee at hk
        repeat' split at hk
        all_goals try exact Except.noConfusion hk
        injection hk with hk; subst hk
        exact ⟨hc.1, Nat.zero_le _, hc.2.2⟩
    · exact hc
  | transferAuthorityIx a na =>
    simp only [stepConfig]
    split
    · next c' hk =>
        unfold transfer_authority at hk
        split at hk
        · exact Except.noConfusion hk
        · injection hk with hk; subst hk; exact hc
    · exact hc
  | acceptAuthorityIx na =>
    simp only [stepConfig]
    split
    · next c' hk =>
        unfold accept_authority at hk
        repeat' split at hk
        all_goals try exact Except.noConfusion hk
        injection hk with hk; subst hk; exact hc
    · exact hc
  | proposeEmergencyCloseIx a pk now =>
    simp only [stepConfig]
    split
    · next c' hk =>
        unfold propose_emergency_close at hk
        split at hk
        · exact Except.noConfusion hk
        · injection hk with hk; subst hk; exact hc
    · exact hc
  | applyEmergencyCloseIx pos caller pk okey vx vy vtx vty vk ox oy now =>
    simp only [stepConfig]
    split
    · next r hr =>
        obtain ⟨e1, e2, e3⟩ := apply_emergency_close_fee_fields hr
        exact hc.of_fields e1 e2 e3
    · exact hc
  | openRoverIx rover dep amount binStep dOwn vxOwn vKey act rem dlmm rKey lp mp now =>
    simp only [stepConfig]
    split
    · next r hr =>
        obtain ⟨e1, e2, e3⟩ := open_rover_position_fee_fields hr
        exact hc.of_fields e1 e2 e3
    · exact hc
  | openFeeRoverIx rover bot amount binStep vxOwn vKey act rem dlmm rKey lp mp now =>
    simp only [stepConfig]
    split
    · next r hr =>
        obtain ⟨e1, e2, e3⟩ := open_fee_rover_fee_fields hr
        exact hc.of_fields e1 e2 e3
    · exact hc
  | sweepRoverIx caller slot lam rent =>
    simp only [stepConfig]
    split
    · next p hp =>
        obtain ⟨e1, e2, e3⟩ := sweep_rover_fee_fields hp
        exact hc.of_fields e1 e2 e3
    · exact hc

/-- The invariant holds in every state reached by folding instructions. -/
theorem runConfig_inv {c : Config} (hc : ConfigInv c) (ops : List Ix) :
    ConfigInv (runConfig c ops) := by
  induction ops generalizing c with
  | nil => exact hc
  | cons op ops ih => exact ih (stepConfig_inv hc op)

/-- The freshly initialized configuration satisfies the invariant. -/
theorem initConfig_inv {authority bot fee_bps : Nat} {c : Config}
    (h : initConfig authority bot fee_bps = .ok c) : ConfigInv c := by
  unfold initConfig at h
  split at h
  · exact Except.noConfusion h
  · injection h with h
    subst h
    refine ⟨?_, Nat.zero_le _, by norm_num⟩
    dsimp only
    omega

set_option maxHeartbeats 4000000 in
/-- Payout accounting of a successful harvest: the fee is
`⌊delta * fee_bps / 10000⌋` on the converted side (zero on the other),
the keeper tip is carved out of the fee, and the entire post-removal
vault balance on each side is distributed exactly between owner,
protocol and keeper. -/
theorem harvest_payout_facts {cfg : Config} {pos : Position}
    {caller clockSlot xb yb xa ya : Nat} {bins : List Int}
    {ka : Option KeeperAta} {acc : HarvestAccounts} {r : HarvestResult}
    (hfee : cfg.fee_bps ≤ 10000) (htip : cfg.keeper_tip_bps ≤ 10000)
    (hxa : xa < U64_MOD) (hya : ya < U64_MOD)
    (h : harvest_bins cfg pos caller clockSlot xb yb xa ya bins ka acc = .ok r) :
    (pos.side = .Buy → r.x_fee = (xa - xb) * cfg.fee_bps / 10000 ∧ r.y_fee = 0) ∧
    (pos.side = .Sell → r.y_fee = (ya - yb) * cfg.fee_bps / 10000 ∧ r.x_fee = 0) ∧
    r.x_fee ≤ xa - xb ∧ r.y_fee ≤ ya - yb ∧
    r.x_tip ≤ r.x_fee ∧ r.y_tip ≤ r.y_fee ∧
    r.x_to_owner + r.x_to_protocol + r.x_tip = xa ∧
    r.y_to_owner + r.y_to_protocol + r.y_tip = ya ∧
    (caller = cfg.bot → r.x_tip = 0 ∧ r.y_tip = 0) ∧
    (caller ≠ cfg.bot ∧ cfg.keeper_tip_bps > 0 →
      r.x_tip = r.x_fee * cfg.keeper_tip_bps / 10000 ∧
      r.y_tip = r.y_fee * cfg.keeper_tip_bps / 10000) := by
  have fx := fee_formula (d := xa - xb) (by omega) hfee
  have fy := fee_formula (d := ya - yb) (by omega) hfee
  have ftx := fee_formula (d := (xa - xb) * cfg.fee_bps / 10000)
    (lt_of_le_of_lt fx.2 (by omega)) htip
  have fty := fee_formula (d := (ya - yb) * cfg.fee_bps / 10000)
    (lt_of_le_of_lt fy.2 (by omega)) htip
  unfold harvest_bins at h
  cases hs : pos.side
  all_goals try simp only [hs] at h
  all_goals try simp only [] at h
  all_goals repeat' split at h
  all_goals try exact Except.noConfusion h
  all_goals obtain ⟨a1, a2, a3, a4⟩ := harvest_author_fee_fields (by assumption)
  all_goals obtain ⟨e1, e2, e3, e4, e5, e6, e7, e8, e9, e10⟩ := harvest_finish_payout h
  all_goals simp_all [chkMul128_ok]
  all_goals omega

/-- The product of a `u64` value and a `bps ≤ 10000` rate stays below
the `u128` boundary, so `checked_mul` on it cannot fail. -/
theorem mul_bps_lt_u128 {v bps : Nat} (hv : v < U64_MOD) (hb : bps ≤ 10000) :
    v * bps < U128_MOD := by
  calc v * bps ≤ v * 10000 := Nat.mul_le_mul_left v hb
  _ < U64_MOD * 10000 := by
      exact Nat.mul_lt_mul_of_lt_of_le hv (le_refl 10000) (by norm_num)
  _ < U128_MOD := by norm_num [U64_MOD, U128_MOD]

/-- `execute_close_transfers` always succeeds when the rate is at most
100% and the balances are `u64`-bounded, with the explicit fee/payout
split. -/
theorem execute_close_total {s : Side} {fee_bps vx vy : Nat}
    (hb : fee_bps ≤ 10000) (hvx : vx < U64_MOD) (hvy : vy < U64_MOD) :
    (s = .Buy →
      execute_close_transfers s fee_bps vx vy =
        .ok (vx * fee_bps / 10000, 0, vx - vx * fee_bps / 10000, vy)) ∧
    (s = .Sell →
      execute_close_transfers s fee_bps vx vy =
        .ok (0, vy * fee_bps / 10000, vx, vy - vy * fee_bps / 10000)) := by
  have fx := fee_formula (d := vx) hvx hb
  have fy := fee_formula (d := vy) hvy hb
  have hmx := mul_bps_lt_u128 hvx hb
  have hmy := mul_bps_lt_u128 hvy hb
  constructor
  all_goals intro hs
  all_goals subst hs
  all_goals unfold execute_close_transfers chkMul128 chkSub64
  all_goals dsimp only
  · rw [if_pos hmx]
    dsimp only [Except.map]
    rw [fx.1, if_pos fx.2, if_pos (Nat.zero_le vy)]
    rfl
  · rw [if_pos hmy]
    dsimp only [Except.map]
    rw [fy.1, if_pos (Nat.zero_le vx), if_pos fy.2]
    rfl

/-- Payout accounting of a successful agent/fallback close: the fee is
the bps share of the entire post-claim vault balance on the position's
side, and each side's balance splits exactly into fee plus payout. -/
theorem close_position_payout {cfg : Config} {pos : Position}
    {caller ownerKey clockSlot xa ya : Nat} {r : CloseResult}
    (hb : cfg.fee_bps ≤ 10000) (hxa : xa < U64_MOD) (hya : ya < U64_MOD)
    (h : close_position cfg pos caller ownerKey clockSlot xa ya = .ok r) :
    (pos.side = .Buy → r.x_fee = xa * cfg.fee_bps / 10000 ∧ r.y_fee = 0 ∧
      r.x_out = xa - xa * cfg.fee_bps / 10000 ∧ r.y_out = ya) ∧
    (pos.side = .Sell → r.y_fee = ya * cfg.fee_bps / 10000 ∧ r.x_fee = 0 ∧
      r.y_out = ya - ya * cfg.fee_bps / 10000 ∧ r.x_out = xa) ∧
    r.x_fee ≤ xa ∧ r.y_fee ≤ ya ∧
    r.x_out + r.x_fee = xa ∧ r.y_out + r.y_fee = ya := by
  have fx := fee_formula (d := xa) hxa hb
  have fy := fee_formula (d := ya) hya hb
  unfold close_position at h
  cases hs : pos.side
  · try simp only [hs] at h
    repeat' split at h
    all_goals try exact Except.noConfusion h
    all_goals obtain ⟨a1, a2, a3⟩ := close_author_fee_fields (by assumption)
    all_goals injection h with h
    all_goals subst h
    all_goals have h2 := (execute_close_total (s := Side.Buy) hb hxa hya).1 rfl
    all_goals simp_all [chkAdd64_ok, Prod.mk.injEq, a1]
    all_goals omega
  · try simp only [hs] at h
    repeat' split at h
    all_goals try exact Except.noConfusion h
    all_goals obtain ⟨a1, a2, a3⟩ := close_author_fee_fields (by assumption)
    all_goals injection h with h
    all_goals subst h
    all_goals have h2 := (execute_close_total (s := Side.Sell) hb hxa hya).2 rfl
    all_goals simp_all [chkAdd64_ok, Prod.mk.injEq, a1]
    all_goals omega

/-- Payout accounting of a successful user close (same split as the
agent path). -/
theorem user_close_payout {cfg : Config} {pos : Position}
    {user xa ya : Nat} {r : CloseResult}
    (hb : cfg.fee_bps ≤ 10000) (hxa : xa < U64_MOD) (hya : ya < U64_MOD)
    (h : user_close cfg pos user xa ya = .ok r) :
    (pos.side = .Buy → r.x_fee = xa * cfg.fee_bps / 10000 ∧ r.y_fee = 0 ∧
      r.x_out = xa - xa * cfg.fee_bps / 10000 ∧ r.y_out = ya) ∧
    (pos.side = .Sell → r.y_fee = ya * cfg.fee_bps / 10000 ∧ r.x_fee = 0 ∧
      r.y_out = ya - ya * cfg.fee_bps / 10000 ∧ r.x_out = xa) ∧
    r.x_fee ≤ xa ∧ r.y_fee ≤ ya ∧
    r.x_out + r.x_fee = xa ∧ r.y_out + r.y_fee = ya := by
  have fx := fee_formula (d := xa) hxa hb
  have fy := fee_formula (d := ya) hya hb
  unfold user_close at h
  cases hs : pos.side
  · try simp only [hs] at h
    repeat' split at h
    all_goals try exact Except.noConfusion h
    all_goals injection h with h
    all_goals subst h
    all_goals have h2 := (execute_close_total (s := Side.Buy) hb hxa hya).1 rfl
    all_goals simp_all [chkAdd64_ok, Prod.mk.injEq]
    all_goals omega
  · try simp only [hs] at h
    repeat' split at h
    all_goals try exact Except.noConfusion h
    all_goals injection h with h
    all_goals subst h
    all_goals have h2 := (execute_close_total (s := Side.Sell) hb hxa hya).2 rfl
    all_goals simp_all [chkAdd64_ok, Prod.mk.injEq]
    all_goals omega

/-- A sample Buy-side position on bins [10,12] (same range as `posA`). -/
def posB : Position :=
  { owner := 3, lb_pair := 4, meteora_position := 5, side := .Buy,
    min_bin_id := 10, max_bin_id := 12, initial_amount := 100000,
    harvested_amount := 0, created_at := 0 }

/-- Fee/payout split facts of a successful `execute_close_transfers`
under the standing rate and balance bounds. -/
theorem execute_close_split {side : Side} {fee_bps vx vy xf yf xo yo : Nat}
    (hb : fee_bps ≤ 10000) (hvx : vx < U64_MOD) (hvy : vy < U64_MOD)
    (h : execute_close_transfers side fee_bps vx vy = .ok (xf, yf, xo, yo)) :
    xf ≤ vx ∧ yf ≤ vy ∧ xo + xf = vx ∧ yo + yf = vy ∧
    (side = .Buy → xf = vx * fee_bps / 10000 ∧ yf = 0) ∧
    (side = .Sell → yf = vy * fee_bps / 10000 ∧ xf = 0) := by
  have fx := fee_formula (d := vx) hvx hb
  have fy := fee_formula (d := vy) hvy hb
  cases side
  · rw [(execute_close_total (s := .Buy) hb hvx hvy).1 rfl] at h
    injection h with h
    simp_all [Prod.mk.injEq]
    omega
  · rw [(execute_close_total (s := .Sell) hb hvx hvy).2 rfl] at h
    injection h with h
    simp_all [Prod.mk.injEq]
    omega

/-- C1 counterexample. The claim `owner_payout + fee + tip == converted_delta`
fails on the code whenever the vault held a balance before the removal
CPI: an agent harvest of a Buy-side position with a pre-existing vault
balance of 100 and a converted delta of 9,999 at `fee_bps = 30` pays out
`10070 + 1 + 29 + 0 = 10099 = pre_balance + delta`, not the delta `9999`,
under either reading of "fee" (the computed fee or the protocol share);
moreover the fee `29` rounds the division remainder *down*, i.e. in the
claimant's favor (`29 * 10000 < 9999 * 30`), not the protocol's. -/
theorem C1_counterexample :
    ∃ r, harvest_bins cfgA posB 2 50 100 0 10099 0 [10, 11, 12] none accA = .ok r ∧
      r.x_to_owner + r.x_to_protocol + r.x_tip ≠ 10099 - 100 ∧
      r.x_to_owner + r.x_fee + r.x_tip ≠ 10099 - 100 ∧
      r.x_fee * 10000 < (10099 - 100) * cfgA.fee_bps := by
  refine ⟨_, rfl, ?_, ?_, ?_⟩
  all_goals decide

/-- C1 (amended): for every harvest, the fee on each side is bounded by
that side's converted delta and the *entire post-removal vault balance*
(pre-existing balance plus converted delta) is distributed exactly as
`owner_payout + protocol_share + tip`; when the vault was empty before
the removal this equals the converted delta exactly. For every close,
`fee ≤ vault_balance` and `payout + fee == vault_balance` exactly, with
no tip. Fee and tip divisions round down (the fee remainder accrues to
the owner, the tip remainder to the protocol). -/
theorem C1_fee_payout_amended {cfg : Config} {pos : Position}
    {caller clockSlot xb yb xa ya : Nat} {bins : List Int}
    {ka : Option KeeperAta} {acc : HarvestAccounts} {r : HarvestResult}
    (hfee : cfg.fee_bps ≤ 10000) (htip : cfg.keeper_tip_bps ≤ 10000)
    (hxa : xa < U64_MOD) (hya : ya < U64_MOD)
    (h : harvest_bins cfg pos caller clockSlot xb yb xa ya bins ka acc = .ok r)
    {side' : Side} {fee' vx vy xf yf xo yo : Nat}
    (hb' : fee' ≤ 10000) (hvx : vx < U64_MOD) (hvy : vy < U64_MOD)
    (hc : execute_close_transfers side' fee' vx vy = .ok (xf, yf, xo, yo)) :
    (r.x_fee ≤ xa - xb ∧ r.y_fee ≤ ya - yb) ∧
    (r.x_to_owner + r.x_to_protocol + r.x_tip = xa ∧
     r.y_to_owner + r.y_to_protocol + r.y_tip = ya) ∧
    (xb = 0 → r.x_to_owner + r.x_to_protocol + r.x_tip = xa - xb) ∧
    (yb = 0 → r.y_to_owner + r.y_to_protocol + r.y_tip = ya - yb) ∧
    (pos.side = .Buy → r.x_fee = (xa - xb) * cfg.fee_bps / 10000) ∧
    (pos.side = .Sell → r.y_fee = (ya - yb) * cfg.fee_bps / 10000) ∧
    (xf ≤ vx ∧ yf ≤ vy ∧ xo + xf = vx ∧ yo + yf = vy) := by
  obtain ⟨p1, p2, p3, p4, p5, p6, p7, p8, _⟩ := harvest_payout_facts hfee htip hxa hya h
  obtain ⟨c1, c2, c3, c4, _⟩ := execute_close_split hb' hvx hvy hc
  exact ⟨⟨p3, p4⟩, ⟨p7, p8⟩, fun hxb => by omega, fun hyb => by omega,
    fun hs => (p1 hs).1, fun hs => (p2 hs).1, c1, c2, c3, c4⟩

/-- C1 witness: the amended claim instantiated on the spec's own agent
harvest scenario (Sell side, delta 10,000, fee 30) and the spec's close
scenario (Buy side, balance 50,000, fee 150). -/
theorem C1_fee_payout_amended_witness :
    ∃ r, harvest_bins cfgA posA 2 50 0 0 0 10000 [10, 11, 12] none accA = .ok r ∧
      r.y_to_owner + r.y_to_protocol + r.y_tip = 10000 := by
  refine ⟨_, rfl, ?_⟩
  have hfacts := C1_fee_payout_amended (by decide) (by decide) (by decide) (by decide)
    (rfl : harvest_bins cfgA posA 2 50 0 0 0 10000 [10, 11, 12] none accA = .ok _)
    (by decide) (by decide) (by decide)
    (rfl : execute_close_transfers .Buy 30 50000 0 = .ok (150, 0, 49850, 0))
  exact hfacts.2.1.2

/-- C7: on every close (agent- or user-initiated) the protocol fee is
computed on the entire post-claim vault balance on the position's side
(`fee = balance * fee_bps / 10000`) and the recipient receives
`balance - fee` on that side; the spec's concrete scenario (Buy side,
balance 50,000, `fee_bps = 30`) yields fee 150 and payout 49,850. -/
theorem C7_close_fee_full_balance {cfg : Config} {pos : Position}
    {caller ownerKey clockSlot xa ya : Nat} {r : CloseResult}
    {cfg' : Config} {pos' : Position} {user xa' ya' : Nat} {r' : CloseResult}
    (hb : cfg.fee_bps ≤ 10000) (hxa : xa < U64_MOD) (hya : ya < U64_MOD)
    (h : close_position cfg pos caller ownerKey clockSlot xa ya = .ok r)
    (hb' : cfg'.fee_bps ≤ 10000) (hxa' : xa' < U64_MOD) (hya' : ya' < U64_MOD)
    (h' : user_close cfg' pos' user xa' ya' = .ok r') :
    ((pos.side = .Buy → r.x_fee = xa * cfg.fee_bps / 10000 ∧
        r.x_out = xa - xa * cfg.fee_bps / 10000) ∧
     (pos.side = .Sell → r.y_fee = ya * cfg.fee_bps / 10000 ∧
        r.y_out = ya - ya * cfg.fee_bps / 10000)) ∧
    ((pos'.side = .Buy → r'.x_fee = xa' * cfg'.fee_bps / 10000 ∧
        r'.x_out = xa' - xa' * cfg'.fee_bps / 10000) ∧
     (pos'.side = .Sell → r'.y_fee = ya' * cfg'.fee_bps / 10000 ∧
        r'.y_out = ya' - ya' * cfg'.fee_bps / 10000)) ∧
    execute_close_transfers .Buy 30 50000 0 = .ok (150, 0, 49850, 0) := by
  obtain ⟨q1, q2, _⟩ := close_position_payout hb hxa hya h
  obtain ⟨u1, u2, _⟩ := user_close_payout hb' hxa' hya' h'
  exact ⟨⟨fun hs => ⟨(q1 hs).1, (q1 hs).2.2.1⟩, fun hs => ⟨(q2 hs).1, (q2 hs).2.2.1⟩⟩,
    ⟨fun hs => ⟨(u1 hs).1, (u1 hs).2.2.1⟩, fun hs => ⟨(u2 hs).1, (u2 hs).2.2.1⟩⟩, rfl⟩

/-- C7 witness: a concrete agent close and a concrete user close of the
spec's Buy-side 50,000-balance scenario. -/
theorem C7_close_fee_full_balance_witness :
    ∃ r r', close_position cfgA posB 2 3 50 50000 0 = .ok r ∧
      user_close cfgA posB 3 50000 0 = .ok r' ∧
      r.x_fee = 150 ∧ r.x_out = 49850 ∧ r'.x_fee = 150 ∧ r'.x_out = 49850 := by
  have hfacts := C7_close_fee_full_balance (by decide) (by decide) (by decide)
    (rfl : close_position cfgA posB 2 3 50 50000 0 = .ok _)
    (by decide) (by decide) (by decide)
    (rfl : user_close cfgA posB 3 50000 0 = .ok _)
  exact ⟨_, _, rfl, rfl, (hfacts.1.1 rfl).1, (hfacts.1.1 rfl).2,
    (hfacts.2.1.1 rfl).1, (hfacts.2.1.1 rfl).2⟩

/-- A sample rover authority for concrete evaluations. -/
def roverA : RoverAuthority :=
  { revenue_dest := 30, total_rover_positions := 0,
    pending_revenue_dest := 0, revenue_dest_change_at := 0 }

/-- The stored side of a successful open is derived from the live
`active_id` alone. -/
theorem open_position_v2_side {cfg : Config} {user amount : Nat}
    {minB maxB : Int} {sp : Side} {sl : Int} {dl uo vxo vyo vk : Nat}
    {act : Int} {lp mp : Nat} {now : Int} {r : OpenResult}
    (h : open_position_v2 cfg user amount minB maxB sp sl dl uo vxo vyo vk act lp mp now
          = .ok r) :
    r.position.side = if minB > act then Side.Sell else Side.Buy := by
  unfold open_position_v2 at h
  split at h
  · exact Except.noConfusion h
  · injection h with h
    subst h
    rfl

/-- C3: the stored side of an open is `Sell` iff the requested lower bin
bound exceeds the pool's live `active_id` read from the pool's own state,
and the caller-supplied `side` argument has no influence whatsoever: two
calls differing only in that argument produce identical results. -/
theorem C3_side_not_caller_controlled :
    (∀ cfg user amount minB maxB s1 s2 sl dl uo vxo vyo vk act lp mp now,
      open_position_v2 cfg user amount minB maxB s1 sl dl uo vxo vyo vk act lp mp now =
        open_position_v2 cfg user amount minB maxB s2 sl dl uo vxo vyo vk act lp mp now) ∧
    (∀ cfg user amount minB maxB sp sl dl uo vxo vyo vk act lp mp now r,
      open_position_v2 cfg user amount minB maxB sp sl dl uo vxo vyo vk act lp mp now
          = .ok r →
      r.position.side = if minB > act then Side.Sell else Side.Buy) := by
  constructor
  · intros
    rfl
  · intro cfg user amount minB maxB sp sl dl uo vxo vyo vk act lp mp now r h
    exact open_position_v2_side h

/-- C3 witness: a concrete open requesting range [-5,5] against live
active bin 0 while passing `Sell` as the side argument stores `Buy`, and
the call's result coincides with the same call passing `Buy`. -/
theorem C3_side_not_caller_controlled_witness :
    (open_position_v2 cfgA 3 10000 (-5) 5 .Sell 10 METEORA_DLMM_PROGRAM_ID 3 9 9 9 0 4 5 0 =
      open_position_v2 cfgA 3 10000 (-5) 5 .Buy 10 METEORA_DLMM_PROGRAM_ID 3 9 9 9 0 4 5 0) ∧
    ∃ r, open_position_v2 cfgA 3 10000 (-5) 5 .Sell 10 METEORA_DLMM_PROGRAM_ID 3 9 9 9 0 4 5 0
        = .ok r ∧ r.position.side = Side.Buy := by
  constructor
  · exact C3_side_not_caller_controlled.1 cfgA 3 10000 (-5) 5 .Sell .Buy 10
      METEORA_DLMM_PROGRAM_ID 3 9 9 9 0 4 5 0
  · refine ⟨_, rfl, ?_⟩
    have h2 := C3_side_not_caller_controlled.2 cfgA 3 10000 (-5) 5 .Sell 10
      METEORA_DLMM_PROGRAM_ID 3 9 9 9 0 4 5 0 _
      (rfl : open_position_v2 cfgA 3 10000 (-5) 5 .Sell 10
        METEORA_DLMM_PROGRAM_ID 3 9 9 9 0 4 5 0 = .ok _)
    simpa using h2

/-- C5: once the emergency-close timelock has expired, any caller may
apply the emergency close; it pays the full remaining vault balances of
both tokens to the position owner's accounts, destroys the Position and
Vault records (their rent going to the caller), clears the pending
emergency-close state, and issues no pool CPI at all. -/
theorem C5_emergency_close {cfg : Config} {pos : Position}
    {caller positionKey ownerKey vx vy vtxO vtyO vk oxO oyO : Nat} {now : Int}
    (hpk : positionKey = cfg.pending_emergency_close)
    (hok : ownerKey = pos.owner)
    (hvtx : vtxO = vk) (hvty : vtyO = vk)
    (hox : oxO = pos.owner) (hoy : oyO = pos.owner)
    (hat : cfg.emergency_close_at > 0)
    (hnow : now ≥ cfg.emergency_close_at) :
    apply_emergency_close cfg pos caller positionKey ownerKey vx vy vtxO vtyO vk
        oxO oyO now =
      .ok { config := { cfg with pending_emergency_close := 0, emergency_close_at := 0 }
            x_to_owner := vx, y_to_owner := vy
            positionRentTo := caller, vaultRentTo := caller, poolCpis := [] } := by
  unfold apply_emergency_close
  rw [if_neg (by simp [hpk]), if_neg (by simp [hok]), if_neg (by simp [hvtx]),
      if_neg (by simp [hvty]), if_neg (by simp [hox]), if_neg (by simp [hoy]),
      if_neg (by omega), if_neg (by omega)]

/-- C5 witness: a stranger (key 9) applies a matured emergency close and
the position owner receives both vault balances with no pool CPI. -/
theorem C5_emergency_close_witness :
    apply_emergency_close
        { cfgA with pending_emergency_close := 55, emergency_close_at := 1000 }
        posA 9 55 3 111 222 7 7 7 3 3 2000 =
      .ok { config := { cfgA with pending_emergency_close := 0, emergency_close_at := 0 }
            x_to_owner := 111, y_to_owner := 222
            positionRentTo := 9, vaultRentTo := 9, poolCpis := [] } :=
  C5_emergency_close rfl rfl rfl rfl rfl rfl (by norm_num) (by norm_num)

/-- C9: starting from `initConfig` (which enforces `fee_bps ≤ 1000` and
seeds `pending_fee_bps = 0`, `keeper_tip_bps = 1000`), every reachable
configuration under any sequence of instructions satisfies
`fee_bps ≤ 1000 ∧ pending_fee_bps ≤ 1000 ∧ keeper_tip_bps ≤ 5000`. -/
theorem C9_config_invariant {authority bot fee_bps : Nat} {c0 : Config}
    (h : initConfig authority bot fee_bps = .ok c0) (ops : List Ix) :
    ConfigInv (runConfig c0 ops) :=
  runConfig_inv (initConfig_inv h) ops

/-- C9 witness: a concrete run through pause, fee proposal, application
and a keeper-tip update keeps the bounds. -/
theorem C9_config_invariant_witness :
    ∃ c0, initConfig 1 2 30 = .ok c0 ∧
      ConfigInv (runConfig c0
        [.pauseIx 1, .proposeFeeIx 1 1000 0, .applyFeeIx 86400,
         .updateKeeperTipIx 1 5000, .unpauseIx 1]) :=
  ⟨_, rfl, C9_config_invariant (rfl : initConfig 1 2 30 = .ok _) _⟩

/-- `chkI32` succeeds on any value within the `i32` range. -/
theorem chkI32_ok_of {n : Int} (h1 : -(2 ^ 31) ≤ n) (h2 : n < 2 ^ 31) :
    chkI32 n = .ok n := by
  unfold chkI32
  rw [if_pos ⟨h1, h2⟩]

/-- C10: `open_fee_rover` is not gated by the pause flag — in any paused
state where its other preconditions hold it succeeds — while both
`open_position_v2` and `open_rover_position` reject a paused state with
`Paused` as their very first check. -/
theorem C10_fee_rover_not_pause_gated :
    (∀ cfg rover bot amount binStep vxo vk act rem dlmm rk lp mp now,
      cfg.paused = true → bot = cfg.bot → amount ≠ 0 →
      MIN_ROVER_BIN_STEP ≤ binStep → vxo = vk →
      -443636 < act → act < 443636 → 2 ≤ rem → dlmm = METEORA_DLMM_PROGRAM_ID →
      ∃ r, open_fee_rover cfg rover bot amount binStep vxo vk act rem dlmm rk lp mp now
        = .ok r) ∧
    (∀ cfg user amount minB maxB sp sl dl uo vxo vyo vk act lp mp now,
      cfg.paused = true →
      open_position_v2 cfg user amount minB maxB sp sl dl uo vxo vyo vk act lp mp now
        = .error .Paused) ∧
    (∀ cfg rover dep amount binStep dO vxo vk act rem dlmm rk lp mp now,
      cfg.paused = true →
      open_rover_position cfg rover dep amount binStep dO vxo vk act rem dlmm rk lp mp now
        = .error .Paused) := by
  refine ⟨?_, ?_, ?_⟩
  · intro cfg rover bot amount binStep vxo vk act rem dlmm rk lp mp now
      _hp hbot hamt hstep hvxo hlo hhi hrem hdlmm
    unfold open_fee_rover
    rw [if_neg (by simp [hbot]), if_neg (by simp [hamt]), if_neg (by omega),
        if_neg (by simp [hvxo]), if_neg (by simp [hlo, hhi]),
        if_neg (by omega), if_neg (by simp [hdlmm])]
    rw [chkI32_ok_of (by omega) (by omega)]
    dsimp only
    rw [chkI32_ok_of (by omega) (by omega)]
    dsimp only
    rw [chkI32_ok_of (by omega) (by omega)]
    exact ⟨_, rfl⟩
  · intro cfg user amount minB maxB sp sl dl uo vxo vyo vk act lp mp now hp
    unfold open_position_v2 open_position_v2_checks
    rw [if_pos hp]
  · intro cfg rover dep amount binStep dO vxo vk act rem dlmm rk lp mp now hp
    unfold open_rover_position open_rover_position_checks
    rw [if_pos hp]

/-- C10 witness: with the protocol paused, the agent opens a fee rover
successfully while a user open and a rover open are rejected. -/
theorem C10_fee_rover_not_pause_gated_witness :
    (∃ r, open_fee_rover { cfgA with paused := true } roverA 2 5000 20 9 9 0 2
        METEORA_DLMM_PROGRAM_ID 40 4 5 0 = .ok r) ∧
    open_position_v2 { cfgA with paused := true } 3 10000 (-5) 5 .Buy 10
        METEORA_DLMM_PROGRAM_ID 3 9 9 9 0 4 5 0 = .error .Paused ∧
    open_rover_position { cfgA with paused := true } roverA 3 10000 20 3 9 9 0 2
        METEORA_DLMM_PROGRAM_ID 40 4 5 0 = .error .Paused := by
  refine ⟨?_, ?_, ?_⟩
  · exact C10_fee_rover_not_pause_gated.1 _ roverA 2 5000 20 9 9 0 2
      METEORA_DLMM_PROGRAM_ID 40 4 5 0 rfl rfl (by decide) (by decide) rfl
      (by decide) (by decide) (by decide) rfl
  · exact C10_fee_rover_not_pause_gated.2.1 _ 3 10000 (-5) 5 .Buy 10
      METEORA_DLMM_PROGRAM_ID 3 9 9 9 0 4 5 0 rfl
  · exact C10_fee_rover_not_pause_gated.2.2 _ roverA 3 10000 20 3 9 9 0 2
      METEORA_DLMM_PROGRAM_ID 40 4 5 0 rfl

/-- C6: timelocked governance. (1) A successful `propose_fee` leaves the
effective `fee_bps` unchanged, records the proposed value as pending, and
sets the effective timestamp exactly 24 hours (86400 s) out. (2) While a
pending change exists and the timelock has not elapsed, `apply_fee` fails
with `FeeTimelockNotExpired` (and, the step relation being abort-on-error,
changes nothing). (3) Once the timelock has elapsed, `apply_fee` sets
`fee_bps` exactly to the pending (proposed) value and clears the pending
state. (4) A successful `cancel_pending_fee` leaves `fee_bps` unchanged
and makes every later `apply_fee` fail with `NoPendingFeeChange`, so the
cancelled value can never apply spontaneously. (5)–(8) state the same
four facts for the rover revenue destination
(`propose_revenue_dest` / `apply_revenue_dest` /
`cancel_pending_revenue_dest` over `RoverAuthority.revenue_dest`). -/
theorem C6_timelock :
    (∀ cfg a nf now cfg', propose_fee cfg a nf now = .ok cfg' →
        cfg'.fee_bps = cfg.fee_bps ∧ cfg'.pending_fee_bps = nf ∧
        cfg'.fee_change_at = now + 86400) ∧
    (∀ (cfg : Config) (now : Int), cfg.fee_change_at > 0 → now < cfg.fee_change_at →
        apply_fee cfg now = .error .FeeTimelockNotExpired) ∧
    (∀ (cfg : Config) (now : Int), cfg.fee_change_at > 0 → ¬ now < cfg.fee_change_at →
        apply_fee cfg now = .ok { cfg with fee_bps := cfg.pending_fee_bps,
                                           pending_fee_bps := 0, fee_change_at := 0 }) ∧
    (∀ cfg a cfg', cancel_pending_fee cfg a = .ok cfg' →
        cfg'.fee_bps = cfg.fee_bps ∧
        ∀ now, apply_fee cfg' now = .error .NoPendingFeeChange) ∧
    (∀ cfg rover a nd now rover', propose_revenue_dest cfg rover a nd now = .ok rover' →
        rover'.revenue_dest = rover.revenue_dest ∧
        rover'.pending_revenue_dest = nd ∧
        rover'.revenue_dest_change_at = now + 86400) ∧
    (∀ (rover : RoverAuthority) (now : Int), rover.revenue_dest_change_at > 0 →
        now < rover.revenue_dest_change_at →
        apply_revenue_dest rover now = .error .FeeTimelockNotExpired) ∧
    (∀ (rover : RoverAuthority) (now : Int), rover.revenue_dest_change_at > 0 →
        ¬ now < rover.revenue_dest_change_at →
        apply_revenue_dest rover now = .ok { rover with
                                               revenue_dest := rover.pending_revenue_dest,
                                               pending_revenue_dest := 0,
                                               revenue_dest_change_at := 0 }) ∧
    (∀ cfg rover a rover', cancel_pending_revenue_dest cfg rover a = .ok rover' →
        rover'.revenue_dest = rover.revenue_dest ∧
        ∀ now, apply_revenue_dest rover' now = .error .NoPendingFeeChange) := by
  refine ⟨?_, ?_, ?_, ?_, ?_, ?_, ?_, ?_⟩
  · intro cfg a nf now cfg' h
    unfold propose_fee at h
    repeat' split at h
    all_goals first
      | exact Except.noConfusion h
      | (injection h with h; subst h; exact ⟨rfl, rfl, rfl⟩)
  · intro cfg now h1 h2
    unfold apply_fee
    rw [if_neg (by omega), if_pos h2]
  · intro cfg now h1 h2
    unfold apply_fee
    rw [if_neg (by omega), if_neg h2]
  · intro cfg a cfg' h
    unfold cancel_pending_fee at h
    repeat' split at h
    all_goals first
      | exact Except.noConfusion h
      | (injection h with h; subst h
         refine ⟨rfl, fun now => ?_⟩
         unfold apply_fee
         rw [if_pos (by simp)])
  · intro cfg rover a nd now rover' h
    unfold propose_revenue_dest at h
    repeat' split at h
    all_goals first
      | exact Except.noConfusion h
      | (injection h with h; subst h; exact ⟨rfl, rfl, rfl⟩)
  · intro rover now h1 h2
    unfold apply_revenue_dest
    rw [if_neg (by omega), if_pos h2]
  · intro rover now h1 h2
    unfold apply_revenue_dest
    rw [if_neg (by omega), if_neg h2]
  · intro cfg rover a rover' h
    unfold cancel_pending_revenue_dest at h
    repeat' split at h
    all_goals first
      | exact Except.noConfusion h
      | (injection h with h; subst h
         refine ⟨rfl, fun now => ?_⟩
         unfold apply_revenue_dest
         rw [if_pos (by simp)])

/-- Concrete run of C6: propose a 50 bps fee at t = 100 on the sample
config; applying at t = 86499 is rejected, applying at t = 86500 installs
exactly 50 bps; cancelling instead keeps 30 bps and a later apply fails;
same shape for the revenue destination on the sample rover. -/
theorem C6_timelock_witness :
    (∃ cfg', propose_fee cfgA 1 50 100 = .ok cfg' ∧
      cfg'.fee_bps = 30 ∧ cfg'.pending_fee_bps = 50 ∧ cfg'.fee_change_at = 86500 ∧
      apply_fee cfg' 86499 = .error .FeeTimelockNotExpired ∧
      apply_fee cfg' 86500 = .ok { cfg' with fee_bps := 50,
                                             pending_fee_bps := 0, fee_change_at := 0 } ∧
      ∃ cfg'', cancel_pending_fee cfg' 1 = .ok cfg'' ∧ cfg''.fee_bps = 30 ∧
        apply_fee cfg'' 999999999 = .error .NoPendingFeeChange) ∧
    (∃ rv', propose_revenue_dest cfgA roverA 1 31 100 = .ok rv' ∧
      rv'.revenue_dest = 30 ∧ rv'.pending_revenue_dest = 31 ∧
      rv'.revenue_dest_change_at = 86500 ∧
      apply_revenue_dest rv' 86499 = .error .FeeTimelockNotExpired ∧
      apply_revenue_dest rv' 86500 = .ok { rv' with revenue_dest := 31,
                                                     pending_revenue_dest := 0,
                                                     revenue_dest_change_at := 0 } ∧
      ∃ rv'', cancel_pending_revenue_dest cfgA rv' 1 = .ok rv'' ∧
        rv''.revenue_dest = 30 ∧
        apply_revenue_dest rv'' 999999999 = .error .NoPendingFeeChange) := by
  have h := C6_timelock
  obtain ⟨h1, h2, h3, h4, h5, h6, h7, h8⟩ := h
  constructor
  · refine ⟨_, (rfl : propose_fee cfgA 1 50 100 = .ok _), ?_⟩
    have hp := h1 cfgA 1 50 100 _ (rfl : propose_fee cfgA 1 50 100 = .ok _)
    obtain ⟨e1, e2, e3⟩ := hp
    refine ⟨by rw [e1]; rfl, e2, by rw [e3]; rfl, ?_, ?_, ?_⟩
    · exact h2 _ 86499 (by rw [e3]; omega) (by rw [e3]; omega)
    · have := h3 _ 86500 (by rw [e3]; omega) (by rw [e3]; omega)
      rw [e2] at this
      exact this
    · have hc := h4 _ 1 _ (rfl : cancel_pending_fee
        { cfgA with pending_fee_bps := 50, fee_change_at := 86500 } 1 = .ok _)
      refine ⟨_, (rfl : cancel_pending_fee
        { cfgA with pending_fee_bps := 50, fee_change_at := 86500 } 1 = .ok _), ?_, ?_⟩
      · rw [hc.1]; rfl
      · exact hc.2 999999999
  · refine ⟨_, (rfl : propose_revenue_dest cfgA roverA 1 31 100 = .ok _), ?_⟩
    have hp := h5 cfgA roverA 1 31 100 _
      (rfl : propose_revenue_dest cfgA roverA 1 31 100 = .ok _)
    obtain ⟨e1, e2, e3⟩ := hp
    refine ⟨by rw [e1]; rfl, e2, by rw [e3]; rfl, ?_, ?_, ?_⟩
    · exact h6 _ 86499 (by rw [e3]; omega) (by rw [e3]; omega)
    · have := h7 _ 86500 (by rw [e3]; omega) (by rw [e3]; omega)
      rw [e2] at this
      exact this
    · have hc := h8 cfgA _ 1 _ (rfl : cancel_pending_revenue_dest cfgA
        { roverA with pending_revenue_dest := 31, revenue_dest_change_at := 86500 } 1 = .ok _)
      refine ⟨_, (rfl : cancel_pending_revenue_dest cfgA
        { roverA with pending_revenue_dest := 31, revenue_dest_change_at := 86500 } 1 = .ok _), ?_, ?_⟩
      · rw [hc.1]; rfl
      · exact hc.2 999999999

/-- Setting `paused` commutes with `harvest_author`: the authorization
step never reads the flag. -/
theorem harvest_author_paused (cfg : Config) (caller slot : Nat) :
    harvest_author { cfg with paused := true } caller slot
      = (harvest_author cfg caller slot).map (fun c => { c with paused := true }) := by
  unfold harvest_author
  dsimp only
  by_cases hc : caller = cfg.bot
  · simp only [if_pos hc]
    rfl
  · simp only [if_neg hc]
    cases chkSub64 slot cfg.last_bot_harvest_slot with
    | error e => rfl
    | ok s =>
      dsimp only
      by_cases hs : s > cfg.priority_slots
      · simp only [if_pos hs]
        rfl
      · simp only [if_neg hs]
        rfl

/-- Setting `paused` commutes with `harvest_finish`: the tail of the
harvest never reads the flag. -/
theorem harvest_finish_paused (cfg1 : Config) (pos : Position) (fromBin toBin : Int)
    (xa ya xf yf xt yt : Nat) (ka : Option KeeperAta) (acc : HarvestAccounts) :
    harvest_finish { cfg1 with paused := true } pos fromBin toBin xa ya xf yf xt yt ka acc
      = (harvest_finish cfg1 pos fromBin toBin xa ya xf yf xt yt ka acc).map
          (fun r => { r with config := { r.config with paused := true } }) := by
  unfold harvest_finish
  dsimp only
  cases chkSub64 xf xt with
  | error e => rfl
  | ok xp =>
    cases chkSub64 yf yt with
    | error e => rfl
    | ok yp =>
      cases chkSub64 xa xf with
      | error e => rfl
      | ok xo =>
        cases chkSub64 ya yf with
        | error e => rfl
        | ok yo =>
          dsimp only
          cases (if xt > 0 ∨ yt > 0 then
                    match ka with
                    | none => .error .MissingKeeperAta
                    | some k =>
                      if ¬ (k.ownerProgram = TOKEN_PROGRAM_ID ∨
                            k.ownerProgram = TOKEN_2022_PROGRAM_ID) then
                        .error .MissingKeeperAta
                      else if k.key = acc.rover_fee_token_y ∨
                              k.key = acc.rover_fee_token_x ∨
                              k.key = acc.owner_token_x ∨
                              k.key = acc.owner_token_y then
                        .error .MissingKeeperAta
                      else if xt > 0 then
                        (if k.mint = acc.token_x_mint then .ok ()
                         else .error .MissingKeeperAta)
                      else
                        (if k.mint = acc.token_y_mint then .ok ()
                         else .error .MissingKeeperAta)
                  else .ok () : Except CoreError Unit) with
          | error e => rfl
          | ok u =>
            dsimp only
            cases pos.side with
            | Buy =>
              dsimp only
              cases chkAdd64 pos.harvested_amount xo with
              | error e => rfl
              | ok ph =>
                dsimp only
                cases chkAdd64 cfg1.total_harvested xo with
                | error e => rfl
                | ok ch => rfl
            | Sell =>
              dsimp only
              cases chkAdd64 pos.harvested_amount yo with
              | error e => rfl
              | ok ph =>
                dsimp only
                cases chkAdd64 cfg1.total_harvested yo with
                | error e => rfl
                | ok ch => rfl

/-- Setting `paused` commutes with the whole of `harvest_bins`. -/
theorem harvest_bins_paused (cfg : Config) (pos : Position)
    (caller slot xb yb xa ya : Nat) (bins : List Int)
    (ka : Option KeeperAta) (acc : HarvestAccounts) :
    harvest_bins { cfg with paused := true } pos caller slot xb yb xa ya bins ka acc
      = (harvest_bins cfg pos caller slot xb yb xa ya bins ka acc).map
          (fun r => { r with config := { r.config with paused := true } }) := by
  unfold harvest_bins
  dsimp only
  by_cases hE : bins.isEmpty
  · simp only [if_pos hE]
    rfl
  · simp only [if_neg hE]
    by_cases hL : ¬ bins.length ≤ 70
    · simp only [if_pos hL]
      rfl
    · simp only [if_neg hL]
      by_cases hR : ¬ bins.all (fun b => decide (pos.min_bin_id ≤ b ∧ b ≤ pos.max_bin_id))
      · simp only [if_pos hR]
        rfl
      · simp only [if_neg hR]
        cases listMin bins with
        | none => rfl
        | some fromB =>
          cases listMax bins with
          | none => rfl
          | some toB =>
            dsimp only
            by_cases hC : ¬ (toB - fromB + 1 = (bins.length : Int))
            · simp only [if_pos hC]
              rfl
            · simp only [if_neg hC]
              rw [harvest_author_paused]
              cases harvest_author cfg caller slot with
              | error e => rfl
              | ok cfg1 =>
                dsimp only [Except.map]
                cases pos.side with
                | Buy =>
                  dsimp only
                  cases chkMul128 (xa - xb) cfg1.fee_bps with
                  | error e => rfl
                  | ok p =>
                    dsimp only
                    by_cases hT : caller ≠ cfg1.bot ∧ cfg1.keeper_tip_bps > 0
                    · simp only [if_pos hT]
                      cases chkMul128 (u64cast (p / 10000)) cfg1.keeper_tip_bps with
                      | error e => rfl
                      | ok px =>
                        dsimp only
                        cases chkMul128 0 cfg1.keeper_tip_bps with
                        | error e => rfl
                        | ok py =>
                          dsimp only
                          rw [harvest_finish_paused]
                          rfl
                    · simp only [if_neg hT]
                      rw [harvest_finish_paused]
                      rfl
                | Sell =>
                  dsimp only
                  cases chkMul128 (ya - yb) cfg1.fee_bps with
                  | error e => rfl
                  | ok p =>
                    dsimp only
                    by_cases hT : caller ≠ cfg1.bot ∧ cfg1.keeper_tip_bps > 0
                    · simp only [if_pos hT]
                      cases chkMul128 0 cfg1.keeper_tip_bps with
                      | error e => rfl
                      | ok px =>
                        dsimp only
                        cases chkMul128 (u64cast (p / 10000)) cfg1.keeper_tip_bps with
                        | error e => rfl
                        | ok py =>
                          dsimp only
                          rw [harvest_finish_paused]
                          rfl
                    · simp only [if_neg hT]
                      rw [harvest_finish_paused]
                      rfl

/-- C8: scope of the pause flag. (1) `claim_fees` does not depend on the
`Config` at all (its context carries no `Config` account), so pausing
cannot block it. (2) `harvest_bins` commutes with setting `paused`: a
paused config produces exactly the same outcome (same error, or same
split and CPIs) with `paused` carried through unchanged, so the flag
never gates a harvest. (3) `open_position_v2` on a paused config is
rejected with `Paused`, (4) as is `open_rover_position`, and (5) the
rejected open leaves the configuration state unchanged. -/
theorem C8_pause_scope :
    (∀ cfg cfg' pos user xc yc,
        claim_fees cfg pos user xc yc = claim_fees cfg' pos user xc yc) ∧
    (∀ cfg pos caller slot xb yb xa ya bins ka acc,
        harvest_bins { cfg with paused := true } pos caller slot xb yb xa ya bins ka acc
          = (harvest_bins cfg pos caller slot xb yb xa ya bins ka acc).map
              (fun r => { r with config := { r.config with paused := true } })) ∧
    (∀ (cfg : Config) (u am : Nat) (minB maxB : Int) (sp : Side) (sl : Int)
        (dl uo vxo vyo vk : Nat) (act : Int) (lp mp : Nat) (now : Int),
        cfg.paused = true →
        open_position_v2 cfg u am minB maxB sp sl dl uo vxo vyo vk act lp mp now
          = .error .Paused) ∧
    (∀ (cfg : Config) (rover : RoverAuthority) (dep am bs dto vxo vk : Nat)
        (act : Int) (rl dl rk lp mp : Nat) (now : Int),
        cfg.paused = true →
        open_rover_position cfg rover dep am bs dto vxo vk act rl dl rk lp mp now
          = .error .Paused) ∧
    (∀ (cfg : Config) (u am : Nat) (minB maxB : Int) (sp : Side) (sl : Int)
        (dl uo vxo vyo vk : Nat) (act : Int) (lp mp : Nat) (now : Int),
        cfg.paused = true →
        stepConfig cfg (.openPositionV2 u am minB maxB sp sl dl uo vxo vyo vk act lp mp now)
          = cfg) := by
  refine ⟨?_, ?_, ?_, ?_, ?_⟩
  · intro cfg cfg' pos user xc yc
    rfl
  · intro cfg pos caller slot xb yb xa ya bins ka acc
    exact harvest_bins_paused cfg pos caller slot xb yb xa ya bins ka acc
  · intro cfg u am minB maxB sp sl dl uo vxo vyo vk act lp mp now hp
    unfold open_position_v2 open_position_v2_checks
    rw [if_pos hp]
  · intro cfg rover dep am bs dto vxo vk act rl dl rk lp mp now hp
    unfold open_rover_position open_rover_position_checks
    rw [if_pos hp]
  · intro cfg u am minB maxB sp sl dl uo vxo vyo vk act lp mp now hp
    have h : open_position_v2 cfg u am minB maxB sp sl dl uo vxo vyo vk act lp mp now
        = .error .Paused := by
      unfold open_position_v2 open_position_v2_checks
      rw [if_pos hp]
    unfold stepConfig
    dsimp only
    rw [h]

/-- Concrete run of C8 on the sample accounts with `paused` set: the
claim and harvest go through (the harvest returning the same result as
on the unpaused config), while both opens are rejected with `Paused` and
the config is left untouched. -/
theorem C8_pause_scope_witness :
    claim_fees { cfgA with paused := true } posA 3 5 7 = claim_fees cfgA posA 3 5 7 ∧
    harvest_bins { cfgA with paused := true } posA 2 50 100 0 10099 0 [10, 11, 12] none accA
      = (harvest_bins cfgA posA 2 50 100 0 10099 0 [10, 11, 12] none accA).map
          (fun r => { r with config := { r.config with paused := true } }) ∧
    (∃ r, harvest_bins { cfgA with paused := true } posA 2 50 100 0 10099 0
        [10, 11, 12] none accA = .ok r) ∧
    open_position_v2 { cfgA with paused := true } 3 10000 (-5) 5 .Buy 10
        METEORA_DLMM_PROGRAM_ID 3 9 9 9 0 4 5 0 = .error .Paused ∧
    open_rover_position { cfgA with paused := true } roverA 3 10000 20 3 9 9 0 2
        METEORA_DLMM_PROGRAM_ID 40 4 5 0 = .error .Paused ∧
    stepConfig { cfgA with paused := true }
        (.openPositionV2 3 10000 (-5) 5 .Buy 10 METEORA_DLMM_PROGRAM_ID 3 9 9 9 0 4 5 0)
      = { cfgA with paused := true } := by
  obtain ⟨h1, h2, h3, h4, h5⟩ := C8_pause_scope
  refine ⟨h1 _ cfgA posA 3 5 7,
    h2 cfgA posA 2 50 100 0 10099 0 [10, 11, 12] none accA,
    ⟨_, (rfl : harvest_bins { cfgA with paused := true } posA 2 50 100 0 10099 0
        [10, 11, 12] none accA = .ok _)⟩,
    h3 _ 3 10000 (-5) 5 .Buy 10 METEORA_DLMM_PROGRAM_ID 3 9 9 9 0 4 5 0 rfl,
    h4 _ roverA 3 10000 20 3 9 9 0 2 METEORA_DLMM_PROGRAM_ID 40 4 5 0 rfl,
    h5 _ 3 10000 (-5) 5 .Buy 10 METEORA_DLMM_PROGRAM_ID 3 9 9 9 0 4 5 0 rfl⟩

/-- The running `foldl min` is a lower bound of its seed and of every
list element. -/
theorem foldl_min_le_all (xs : List Int) (a : Int) :
    xs.foldl min a ≤ a ∧ ∀ b ∈ xs, xs.foldl min a ≤ b := by
  induction xs generalizing a with
  | nil => simp
  | cons x xs ih =>
    simp only [List.foldl_cons]
    refine ⟨le_trans (ih (min a x)).1 (min_le_left a x), ?_⟩
    intro b hb
    rcases List.mem_cons.mp hb with rfl | hb
    · exact le_trans (ih (min a b)).1 (min_le_right a b)
    · exact (ih (min a x)).2 b hb

/-- The running `foldl max` is an upper bound of its seed and of every
list element. -/
theorem foldl_le_max_all (xs : List Int) (a : Int) :
    a ≤ xs.foldl max a ∧ ∀ b ∈ xs, b ≤ xs.foldl max a := by
  induction xs generalizing a with
  | nil => simp
  | cons x xs ih =>
    simp only [List.foldl_cons]
    refine ⟨le_trans (le_max_left a x) (ih (max a x)).1, ?_⟩
    intro b hb
    rcases List.mem_cons.mp hb with rfl | hb
    · exact le_trans (le_max_right a b) (ih (max a b)).1
    · exact (ih (max a x)).2 b hb

/-- `listMin` bounds every element from below. -/
theorem listMin_le {bins : List Int} {lo : Int} (h : listMin bins = some lo) :
    ∀ b ∈ bins, lo ≤ b := by
  cases bins with
  | nil => simp [listMin] at h
  | cons x xs =>
    simp only [listMin] at h
    injection h with h
    subst h
    intro b hb
    rcases List.mem_cons.mp hb with rfl | hb
    · exact (foldl_min_le_all xs b).1
    · exact (foldl_min_le_all xs x).2 b hb

/-- `listMax` bounds every element from above. -/
theorem le_listMax {bins : List Int} {hi : Int} (h : listMax bins = some hi) :
    ∀ b ∈ bins, b ≤ hi := by
  cases bins with
  | nil => simp [listMax] at h
  | cons x xs =>
    simp only [listMax] at h
    injection h with h
    subst h
    intro b hb
    rcases List.mem_cons.mp hb with rfl | hb
    · exact (foldl_le_max_all xs b).1
    · exact (foldl_le_max_all xs x).2 b hb

/-- Counting argument behind the contiguity analysis: a duplicate-free
list that misses some value `g` lying between its minimum and maximum is
strictly shorter than the enclosing bin range. -/
theorem nodup_gap_length {bins : List Int} {lo hi g : Int}
    (hnd : bins.Nodup) (hm : listMin bins = some lo) (hx : listMax bins = some hi)
    (hg1 : lo ≤ g) (hg2 : g ≤ hi) (hgn : g ∉ bins) :
    (bins.length : Int) < hi - lo + 1 := by
  have hsub : bins.toFinset ⊆ (Finset.Icc lo hi).erase g := by
    intro b hb
    rw [List.mem_toFinset] at hb
    refine Finset.mem_erase.mpr ⟨?_, ?_⟩
    · rintro rfl
      exact hgn hb
    · exact Finset.mem_Icc.mpr ⟨listMin_le hm b hb, le_listMax hx b hb⟩
  have hcard := Finset.card_le_card hsub
  rw [List.toFinset_card_of_nodup hnd,
      Finset.card_erase_of_mem (Finset.mem_Icc.mpr ⟨hg1, hg2⟩),
      Int.card_Icc] at hcard
  omega

/-- A Sell-side position covering bins [5, 7], used in the contiguity
analysis. -/
def posC2 : Position :=
  { owner := 3, lb_pair := 4, meteora_position := 5, side := .Sell,
    min_bin_id := 5, max_bin_id := 7, initial_amount := 100000,
    harvested_amount := 0, created_at := 0 }

/-- C2 counterexample: the list `[5, 5, 7]` contains a gap (bin 6 lies
between its minimum 5 and maximum 7 but is absent), yet the harvest is
accepted — the duplicate makes the length equal the bin span, so the
`(max - min + 1) == len` check passes — and the issued
remove-liquidity CPI sweeps the whole range [5, 7] including the
never-listed bin 6. The spec's "any list containing a gap is rejected"
is therefore false. -/
theorem C2_counterexample :
    listMin [5, 5, 7] = some 5 ∧ listMax [5, 5, 7] = some 7 ∧
    (6 : Int) ∉ [(5 : Int), 5, 7] ∧
    ∃ r, harvest_bins cfgA posC2 2 50 0 0 0 10099 [5, 5, 7] none accA = .ok r ∧
      r.poolCpis = [.removeLiquidityByRange 5 7 10000] := by
  refine ⟨rfl, rfl, by decide, _, rfl, rfl⟩

/-- C2, amended. (1) Every accepted harvest's bin list satisfies the
literal check `max_bin - min_bin + 1 == len(bin_ids)`. (2) For a
duplicate-free list the check does imply contiguity: if some bin `g`
between the minimum and maximum is missing, the call is rejected with
`NonContiguousBins` for every caller and every oracle value (so before
any external call can matter), and the configuration state is unchanged.
With duplicates, (1) is all the check guarantees — see the
counterexample. -/
theorem C2_contiguity_amended :
    (∀ cfg pos caller slot xb yb xa ya bins ka acc r,
        harvest_bins cfg pos caller slot xb yb xa ya bins ka acc = .ok r →
        ∃ lo hi, listMin bins = some lo ∧ listMax bins = some hi ∧
          hi - lo + 1 = (bins.length : Int)) ∧
    (∀ cfg pos (caller slot xb yb xa ya : Nat) (bins : List Int) ka acc (lo hi g : Int),
        bins.Nodup → listMin bins = some lo → listMax bins = some hi →
        lo ≤ g → g ≤ hi → g ∉ bins → bins.length ≤ 70 →
        bins.all (fun b => decide (pos.min_bin_id ≤ b ∧ b ≤ pos.max_bin_id)) = true →
        harvest_bins cfg pos caller slot xb yb xa ya bins ka acc
            = .error .NonContiguousBins ∧
          stepConfig cfg (.harvestBins pos caller slot xb yb xa ya bins ka acc) = cfg) := by
  constructor
  · intro cfg pos caller slot xb yb xa ya bins ka acc r h
    unfold harvest_bins at h
    simp only [] at h
    repeat' split at h
    all_goals try exact Except.noConfusion h
    all_goals try simp only [not_not] at *
    all_goals exact ⟨_, _, by assumption, by assumption, by omega⟩
  · intro cfg pos caller slot xb yb xa ya bins ka acc lo hi g hnd hm hx hg1 hg2 hgn hlen hall
    have hlt := nodup_gap_length hnd hm hx hg1 hg2 hgn
    have hne : bins ≠ [] := by
      rintro rfl
      simp [listMin] at hm
    have hrej : harvest_bins cfg pos caller slot xb yb xa ya bins ka acc
        = .error .NonContiguousBins := by
      unfold harvest_bins
      rw [if_neg (by simp only [List.isEmpty_iff]; exact hne),
          if_neg (not_not_intro hlen),
          if_neg (not_not_intro hall), hm, hx]
      dsimp only
      rw [if_pos (by omega)]
    refine ⟨hrej, ?_⟩
    unfold stepConfig
    dsimp only
    rw [hrej]

/-- Concrete run of C2 (amended): the accepted harvest on `[10, 11, 12]`
satisfies the span equation, and the gap list `[5, 7]` (missing 6) is
rejected with `NonContiguousBins`. -/
theorem C2_contiguity_amended_witness :
    (∃ lo hi, listMin [10, 11, 12] = some lo ∧ listMax [10, 11, 12] = some hi ∧
        hi - lo + 1 = (3 : Int)) ∧
    harvest_bins cfgA posC2 2 50 0 0 0 10099 [5, 7] none accA
      = .error .NonContiguousBins := by
  constructor
  · exact C2_contiguity_amended.1 cfgA posA 2 50 100 0 10099 0 [10, 11, 12] none accA _
      (rfl : harvest_bins cfgA posA 2 50 100 0 10099 0 [10, 11, 12] none accA = .ok _)
  · exact (C2_contiguity_amended.2 cfgA posC2 2 50 0 0 0 10099 [5, 7] none accA 5 7 6
      (by decide) rfl rfl (by decide) (by decide) (by decide) (by decide) (by decide)).1

/-- The authorized bot's successful harvest authorization records the
current slot as the new harvest heartbeat. -/
theorem harvest_author_bot_slot {cfg : Config} {slot : Nat} {cfg1 : Config}
    (h : harvest_author cfg cfg.bot slot = .ok cfg1) :
    cfg1.last_bot_harvest_slot = slot := by
  unfold harvest_author at h
  rw [if_pos rfl] at h
  injection h with h
  subst h
  rfl

/-- The authorized bot's successful close authorization records the
current slot as the new close heartbeat. -/
theorem close_author_bot_slot {cfg : Config} {slot : Nat} {cfg1 : Config}
    (h : close_author cfg cfg.bot slot = .ok cfg1) :
    cfg1.last_bot_close_slot = slot := by
  unfold close_author at h
  rw [if_pos rfl] at h
  split at h
  · exact Except.noConfusion h
  · injection h with h
    subst h
    rfl

set_option maxHeartbeats 2000000 in
/-- `harvest_finish` never touches the harvest heartbeat. -/
theorem harvest_finish_slot {cfg1 : Config} {pos : Position}
    {fb tb : Int} {xa ya xf yf xt yt : Nat} {ka : Option KeeperAta}
    {acc : HarvestAccounts} {r : HarvestResult}
    (h : harvest_finish cfg1 pos fb tb xa ya xf yf xt yt ka acc = .ok r) :
    r.config.last_bot_harvest_slot = cfg1.last_bot_harvest_slot := by
  unfold harvest_finish at h
  simp only [] at h
  repeat' split at h
  all_goals try exact Except.noConfusion h
  all_goals injection h with h
  all_goals subst h
  all_goals rfl

/-- C4 counterexample: a permissionless (non-agent) call accepted past
the staleness threshold does not necessarily pay a non-zero tip. The
harvest below (caller 7, stale bot, `keeper_tip_bps = 1000`) succeeds
with both tips equal to zero because the converted delta is zero; the
close below succeeds and distributes the entire vault balance to the
protocol fee and the owner — the close path carves out no tip at all. -/
theorem C4_counterexample :
    ((7 : Nat) ≠ cfgA.bot ∧ cfgA.keeper_tip_bps = 1000) ∧
    (∃ r, harvest_bins cfgA posA 7 200 0 0 0 0 [10, 11, 12] none accA = .ok r ∧
        r.x_tip = 0 ∧ r.y_tip = 0) ∧
    (∃ r, close_position cfgA posB 7 3 200 50000 0 = .ok r ∧
        r.x_fee + r.x_out = 50000 ∧ r.y_fee + r.y_out = 0) := by
  refine ⟨⟨by decide, rfl⟩, ⟨_, rfl, rfl, rfl⟩, ⟨_, rfl, by decide, by decide⟩⟩

/-- C4, amended. Non-agent callers: (1) a harvest while the bot's
harvest heartbeat is within `priority_slots` is rejected with
`BotNotStale` (never accepted, whatever the other arguments), and (2)
likewise a close against a fresh close heartbeat; (3) past the
threshold the staleness gate itself passes (acceptance still being
subject to the call's other guards). Tips: (4) an accepted
permissionless harvest tips exactly `fee * keeper_tip_bps / 10000` on
each side — which floors to zero for small fees — and (5) an accepted
close splits the whole balance between protocol fee and owner, paying
no tip at all. Agent callers: (6) a successful agent harvest records
the current slot in `last_bot_harvest_slot`, and (7) a successful agent
close records it in `last_bot_close_slot`. -/
theorem C4_agent_fallback_amended :
    (∀ (cfg : Config) (caller slot : Nat), caller ≠ cfg.bot →
        cfg.last_bot_harvest_slot ≤ slot →
        slot - cfg.last_bot_harvest_slot ≤ cfg.priority_slots →
        harvest_author cfg caller slot = .error .BotNotStale ∧
        ∀ pos xb yb xa ya bins ka acc r,
          harvest_bins cfg pos caller slot xb yb xa ya bins ka acc ≠ .ok r) ∧
    (∀ (cfg : Config) (caller slot : Nat), caller ≠ cfg.bot →
        cfg.last_bot_close_slot ≤ slot →
        slot - cfg.last_bot_close_slot ≤ cfg.priority_slots →
        close_author cfg caller slot = .error .BotNotStale ∧
        ∀ pos okey xa ya r,
          close_position cfg pos caller okey slot xa ya ≠ .ok r) ∧
    (∀ (cfg : Config) (caller slot : Nat), caller ≠ cfg.bot →
        (slot - cfg.last_bot_harvest_slot > cfg.priority_slots →
          harvest_author cfg caller slot = .ok cfg) ∧
        (slot - cfg.last_bot_close_slot > cfg.priority_slots →
          close_author cfg caller slot = .ok cfg)) ∧
    (∀ cfg pos caller slot xb yb xa ya bins ka acc r,
        cfg.fee_bps ≤ 10000 → cfg.keeper_tip_bps ≤ 10000 →
        xa < U64_MOD → ya < U64_MOD →
        caller ≠ cfg.bot → cfg.keeper_tip_bps > 0 →
        harvest_bins cfg pos caller slot xb yb xa ya bins ka acc = .ok r →
        r.x_tip = r.x_fee * cfg.keeper_tip_bps / 10000 ∧
        r.y_tip = r.y_fee * cfg.keeper_tip_bps / 10000) ∧
    (∀ cfg pos caller okey slot xa ya r,
        cfg.fee_bps ≤ 10000 → xa < U64_MOD → ya < U64_MOD →
        close_position cfg pos caller okey slot xa ya = .ok r →
        r.x_out + r.x_fee = xa ∧ r.y_out + r.y_fee = ya) ∧
    (∀ cfg pos slot xb yb xa ya bins ka acc r,
        harvest_bins cfg pos cfg.bot slot xb yb xa ya bins ka acc = .ok r →
        r.config.last_bot_harvest_slot = slot) ∧
    (∀ cfg pos okey slot xa ya r,
        close_position cfg pos cfg.bot okey slot xa ya = .ok r →
        r.config.last_bot_close_slot = slot) := by
  refine ⟨?_, ?_, ?_, ?_, ?_, ?_, ?_⟩
  · intro cfg caller slot hc hl hs
    have haut : harvest_author cfg caller slot = .error .BotNotStale := by
      unfold harvest_author
      rw [if_neg hc]
      unfold chkSub64
      rw [if_pos hl]
      dsimp only
      rw [if_neg (by omega)]
    refine ⟨haut, ?_⟩
    intro pos xb yb xa ya bins ka acc r h
    unfold harvest_bins at h
    simp only [] at h
    rw [haut] at h
    dsimp only at h
    repeat' split at h
    all_goals exact Except.noConfusion h
  · intro cfg caller slot hc hl hs
    have haut : close_author cfg caller slot = .error .BotNotStale := by
      unfold close_author
      rw [if_neg hc]
      unfold chkSub64
      rw [if_pos hl]
      dsimp only
      rw [if_neg (by omega)]
    refine ⟨haut, ?_⟩
    intro pos okey xa ya r h
    unfold close_position at h
    simp only [] at h
    rw [haut] at h
    dsimp only at h
    repeat' split at h
    all_goals exact Except.noConfusion h
  · intro cfg caller slot hc
    constructor
    · intro hs
      unfold harvest_author
      rw [if_neg hc]
      unfold chkSub64
      rw [if_pos (by omega)]
      dsimp only
      rw [if_pos hs]
    · intro hs
      unfold close_author
      rw [if_neg hc]
      unfold chkSub64
      rw [if_pos (by omega)]
      dsimp only
      rw [if_pos hs]
  · intro cfg pos caller slot xb yb xa ya bins ka acc r hfee htip hxa hya hc hk h
    exact (harvest_payout_facts hfee htip hxa hya h).2.2.2.2.2.2.2.2.2 ⟨hc, hk⟩
  · intro cfg pos caller okey slot xa ya r hb hxa hya h
    exact (close_position_payout hb hxa hya h).2.2.2.2
  · intro cfg pos slot xb yb xa ya bins ka acc r h
    unfold harvest_bins at h
    simp only [] at h
    repeat' split at h
    all_goals try exact Except.noConfusion h
    all_goals exact (harvest_finish_slot h).trans (harvest_author_bot_slot (by assumption))
  · intro cfg pos okey slot xa ya r h
    unfold close_position at h
    simp only [] at h
    repeat' split at h
    all_goals try exact Except.noConfusion h
    all_goals injection h with h
    all_goals subst h
    all_goals have ha := close_author_bot_slot (by assumption)
    all_goals exact ha

/-- Concrete run of C4 (amended) on the sample config (bot = 2,
`priority_slots` = 100, heartbeats at 0): caller 7 is turned away at
slot 50 on both paths, passes the staleness gate at slot 200; an agent
harvest at slot 77 and an agent close at slot 88 record those slots as
the new heartbeats. -/
theorem C4_agent_fallback_amended_witness :
    harvest_author cfgA 7 50 = .error .BotNotStale ∧
    close_author cfgA 7 50 = .error .BotNotStale ∧
    harvest_author cfgA 7 200 = .ok cfgA ∧
    close_author cfgA 7 200 = .ok cfgA ∧
    (∃ r, harvest_bins cfgA posA cfgA.bot 77 0 0 0 0 [10, 11, 12] none accA = .ok r ∧
        r.config.last_bot_harvest_slot = 77) ∧
    (∃ r, close_position cfgA posB cfgA.bot 3 88 50000 0 = .ok r ∧
        r.config.last_bot_close_slot = 88) := by
  obtain ⟨h1, h2, h3, h4, h5, h6, h7⟩ := C4_agent_fallback_amended
  refine ⟨(h1 cfgA 7 50 (by decide) (by decide) (by decide)).1,
    (h2 cfgA 7 50 (by decide) (by decide) (by decide)).1,
    (h3 cfgA 7 200 (by decide)).1 (by decide),
    (h3 cfgA 7 200 (by decide)).2 (by decide),
    ⟨_, (rfl : harvest_bins cfgA posA cfgA.bot 77 0 0 0 0 [10, 11, 12] none accA = .ok _),
      h6 cfgA posA 77 0 0 0 0 [10, 11, 12] none accA _
        (rfl : harvest_bins cfgA posA cfgA.bot 77 0 0 0 0 [10, 11, 12] none accA = .ok _)⟩,
    ⟨_, (rfl : close_position cfgA posB cfgA.bot 3 88 50000 0 = .ok _),
      h7 cfgA posB 3 88 50000 0 _
        (rfl : close_position cfgA posB cfgA.bot 3 88 50000 0 = .ok _)⟩⟩

end BinFarm
